import Mathlib

/-!
Camera transform algebra of gdb-imagewatch.

A shallow embedding of `src/visualization/components/camera.cpp`.

The source is embedded twice.

* Exact arithmetic (`Camera`, `CameraEvent`): scalars (`float`) are elements of a
  linearly ordered field `K`, no rounding, no overflow.  The theorems that speak
  of arithmetic over the reals are about this embedding, with `K` instantiated
  by `ℝ` and `std::pow` by `Real.rpow`.  All definitions are computable at
  `K = ℚ`.
* Single precision (`Single.Camera`, over the floating-point data `Fp`): the
  same source lines with every conversion and operation rounded as IEEE 754
  binary32 and binary64 arithmetic rounds it.  Statements that hold in exact
  arithmetic only are refuted on this embedding.
* `int` fields and arguments are `ℤ`, converted where the source promotes them
  to `float`.
* A null pointer dereference and a loop that has not stopped within the given
  fuel are the two faults an operation can end in.
-/

/-- Four-component vector (`vec4`). -/
abbrev vec4 (K : Type) := Fin 4 → K

/-- Four by four matrix (`mat4`); `*` is the matrix product, `mulVec` the
product of a matrix with a `vec4`. -/
abbrev mat4 (K : Type) := Matrix (Fin 4) (Fin 4) K

namespace vec4

variable {K : Type}

/-- Accessor `vec4::x()`. -/
def x (v : vec4 K) : K := v 0

/-- Accessor `vec4::y()`. -/
def y (v : vec4 K) : K := v 1

/-- Accessor `vec4::z()`. -/
def z (v : vec4 K) : K := v 2

end vec4

namespace mat4

variable {K : Type} [Field K]

/-- Modelled from the spec: `mat4::inv` (math library, not under src/), the
matrix inverse `inverse(m)`; computed as adjugate over determinant, which is
the inverse whenever the determinant is non-zero. -/
def inv (m : mat4 K) : mat4 K := (Matrix.det m)⁻¹ • Matrix.adjugate m

/-- Modelled from the spec: `mat4::translation` (math library, not under src/),
the homogeneous translation `translate(v)` by the x, y, z components of `v`. -/
def translation (v : vec4 K) : mat4 K :=
  !![1, 0, 0, v.x;
     0, 1, 0, v.y;
     0, 0, 1, v.z;
     0, 0, 0, 1]

/-- Modelled from the spec: `mat4::scale` (math library, not under src/), the
homogeneous scaling `scale(sx, sy, sz)` by the x, y, z components of `v`. -/
def scale (v : vec4 K) : mat4 K :=
  !![v.x, 0, 0, 0;
     0, v.y, 0, 0;
     0, 0, v.z, 0;
     0, 0, 0, 1]

/-- Modelled from the spec: `mat4::set_ortho_projection` (math library, not
under src/), the orthographic projection spanning `[-right, right]` by
`[-top, top]` with depth range `[near, far]`. -/
def set_ortho_projection (right top near far : K) : mat4 K :=
  !![1 / right, 0, 0, 0;
     0, 1 / top, 0, 0;
     0, 0, -2 / (far - near), -(far + near) / (far - near);
     0, 0, 0, 1]

end mat4

/-- Readings of the surface provider `gl_canvas`: pointer position (`float`)
and surface size (`int`). -/
structure GLCanvas (K : Type) where
  mouse_x : K
  mouse_y : K
  width : ℤ
  height : ℤ

/-- What `game_object->stage` yields to `set_initial_zoom`: the pose of the game
object named "buffer" and the dimensions held by its buffer component. -/
structure Stage (K : Type) where
  buffer_pose : mat4 K
  buffer_width_f : K
  buffer_height_f : K

/-- The scene node a camera is attached to; the camera writes its pose. -/
structure GameObject (K : Type) where
  pose : mat4 K

/-- The two ways an operation can fail to return a camera state. -/
inductive Fault where
  | null_dereference
  | out_of_fuel
  deriving DecidableEq, Repr

/-- Fields of `Camera`; `game_object` is `none` for a null pointer. -/
structure Camera (K : Type) where
  zoom_power_ : K
  camera_pos_x_ : K
  camera_pos_y_ : K
  canvas_width_ : ℤ
  canvas_height_ : ℤ
  scale_ : mat4 K
  projection : mat4 K
  game_object : Option (GameObject K)

namespace Camera

variable {K : Type} [LinearOrderedField K]

/-- `Camera::update_object_pose`: push `scale_ * translation(-pos)` to the bound
game object, do nothing when there is none. -/
def update_object_pose (c : Camera K) : Camera K :=
  match c.game_object with
  | some g =>
    let position : vec4 K := ![-c.camera_pos_x_, -c.camera_pos_y_, 0, 1]
    let pose : mat4 K := c.scale_ * mat4.translation position
    { c with game_object := some { g with pose := pose } }
  | none => c

/-- `Camera::operator=`: copy the listed fields of `cam`, then push the pose. -/
def assign (c cam : Camera K) : Camera K :=
  update_object_pose
    { c with
      zoom_power_ := cam.zoom_power_
      camera_pos_x_ := cam.camera_pos_x_
      camera_pos_y_ := cam.camera_pos_y_
      canvas_width_ := cam.canvas_width_
      canvas_height_ := cam.canvas_height_
      scale_ := cam.scale_ }

/-- `Camera::window_resized`. -/
def window_resized (w h : ℤ) (c : Camera K) : Camera K :=
  { c with
    projection := mat4.set_ortho_projection ((w : K) / 2) ((h : K) / 2) (-1) 1
    canvas_width_ := w
    canvas_height_ := h }

/-- The pointer position in normalized device coordinates, as computed in the
first lines of `Camera::scroll_callback` (source lines 62 to 70). -/
def mouse_pos_ndc (gl_canvas : GLCanvas K) : vec4 K :=
  let mouse_x : K := gl_canvas.mouse_x
  let mouse_y : K := gl_canvas.mouse_y
  let win_w : K := (gl_canvas.width : K)
  let win_h : K := (gl_canvas.height : K)
  ![2 * (mouse_x - win_w / 2) / win_w, -2 * (mouse_y - win_h / 2) / win_h, 0, 1]

/-- `Camera::scroll_callback` in exact arithmetic; `pow` is `std::pow` and
`zoom_factor` the class constant of that name.  Dereferencing a null
`game_object` is a fault.  The sum `zoom_power_ += delta` is not rounded here
(see `Single.Camera.scroll_callback` for the `float` sum). -/
def scroll_callback (pow : K → K → K) (zoom_factor : K) (gl_canvas : GLCanvas K)
    (delta : K) (c : Camera K) : Except Fault (Camera K) :=
  let mouse_pos_ndc : vec4 K := mouse_pos_ndc gl_canvas
  match c.game_object with
  | none => .error .null_dereference
  | some g =>
    let vp_inv : mat4 K := g.pose * mat4.inv c.projection
    let delta_zoom : K := pow zoom_factor (-delta)
    let mouse_pos : vec4 K := Matrix.mulVec (mat4.inv c.scale_ * vp_inv) mouse_pos_ndc
    let scale_ : mat4 K :=
      c.scale_ *
        mat4.translation mouse_pos *
        mat4.scale ![delta_zoom, delta_zoom, 1, 1] *
        mat4.translation (-mouse_pos)
    .ok (update_object_pose { c with scale_ := scale_, zoom_power_ := c.zoom_power_ + delta })

/-- `Camera::update`. -/
def update (c : Camera K) : Camera K := c

/-- `Camera::compute_zoom` in exact arithmetic: the value of `pow` is not
rounded to a `float` (see `Single.Camera.compute_zoom`). -/
def compute_zoom (pow : K → K → K) (zoom_factor : K) (c : Camera K) : K :=
  pow zoom_factor c.zoom_power_

/-- The "zoom in" loop of `set_initial_zoom` in exact arithmetic, entered with
`new_zoom` already computed; `none` when the fuel runs out before the loop
condition fails.  The canvas size and the product are compared without rounding
(see `Single.Camera.zoom_in_loop` for the `float` comparison). -/
def zoom_in_loop (pow : K → K → K) (zoom_factor : K) (buf_dim : vec4 K) :
    ℕ → Camera K → K → Option (Camera K)
  | 0, _, _ => none
  | fuel + 1, c, new_zoom =>
    if (c.canvas_width_ : K) > new_zoom * buf_dim.x ∧
        (c.canvas_height_ : K) > new_zoom * buf_dim.y then
      let c1 : Camera K := { c with zoom_power_ := c.zoom_power_ + 1 }
      zoom_in_loop pow zoom_factor buf_dim fuel c1 (compute_zoom pow zoom_factor c1)
    else some c

/-- The "zoom out" loop of `set_initial_zoom` in exact arithmetic (see
`Single.Camera.zoom_out_loop` for the `float` comparison). -/
def zoom_out_loop (pow : K → K → K) (zoom_factor : K) (buf_dim : vec4 K) :
    ℕ → Camera K → K → Option (Camera K)
  | 0, _, _ => none
  | fuel + 1, c, new_zoom =>
    if (c.canvas_width_ : K) < new_zoom * buf_dim.x ∨
        (c.canvas_height_ : K) < new_zoom * buf_dim.y then
      let c1 : Camera K := { c with zoom_power_ := c.zoom_power_ - 1 }
      zoom_out_loop pow zoom_factor buf_dim fuel c1 (compute_zoom pow zoom_factor c1)
    else some c

/-- The effective content size `buf_dim` read by `set_initial_zoom`. -/
def buf_dim (stage : Stage K) : vec4 K :=
  Matrix.mulVec stage.buffer_pose ![stage.buffer_width_f, stage.buffer_height_f, 0, 1]

/-- The search part of `set_initial_zoom` (source lines 138 to 164). -/
def fit_search (pow : K → K → K) (zoom_factor : K) (buf_dim : vec4 K) (fuel : ℕ)
    (c : Camera K) : Except Fault (Camera K) :=
  let c0 : Camera K := { c with zoom_power_ := 0 }
  if (c0.canvas_width_ : K) > buf_dim.x ∧ (c0.canvas_height_ : K) > buf_dim.y then
    let c1 : Camera K := { c0 with zoom_power_ := c0.zoom_power_ + 1 }
    match zoom_in_loop pow zoom_factor buf_dim fuel c1 (compute_zoom pow zoom_factor c1) with
    | none => .error .out_of_fuel
    | some c2 => .ok { c2 with zoom_power_ := c2.zoom_power_ - 1 }
  else if (c0.canvas_width_ : K) < buf_dim.x ∨ (c0.canvas_height_ : K) < buf_dim.y then
    let c1 : Camera K := { c0 with zoom_power_ := c0.zoom_power_ - 1 }
    match zoom_out_loop pow zoom_factor buf_dim fuel c1 (compute_zoom pow zoom_factor c1) with
    | none => .error .out_of_fuel
    | some c2 => .ok c2
  else .ok c0

/-- `Camera::set_initial_zoom`; `stage` is what `game_object->stage` holds, and
the call faults when `game_object` is null. -/
def set_initial_zoom (pow : K → K → K) (zoom_factor : K) (stage : Stage K) (fuel : ℕ)
    (c : Camera K) : Except Fault (Camera K) :=
  match c.game_object with
  | none => .error .null_dereference
  | some _ =>
    match fit_search pow zoom_factor (buf_dim stage) fuel c with
    | .error e => .error e
    | .ok c3 =>
      let zoom : K := 1 / compute_zoom pow zoom_factor c3
      .ok { c3 with scale_ := mat4.scale ![zoom, zoom, 1, 1] }

/-- `Camera::post_initialize` (its return value `true` is dropped). -/
def post_initialize (pow : K → K → K) (zoom_factor : K) (gl_canvas : GLCanvas K)
    (stage : Stage K) (fuel : ℕ) (c : Camera K) : Except Fault (Camera K) :=
  match set_initial_zoom pow zoom_factor stage fuel
      (window_resized gl_canvas.width gl_canvas.height c) with
  | .error e => .error e
  | .ok c2 => .ok (update_object_pose c2)

/-- `Camera::recenter_camera`. -/
def recenter_camera (pow : K → K → K) (zoom_factor : K) (stage : Stage K) (fuel : ℕ)
    (c : Camera K) : Except Fault (Camera K) :=
  match set_initial_zoom pow zoom_factor stage fuel
      { c with camera_pos_x_ := 0, camera_pos_y_ := 0 } with
  | .error e => .error e
  | .ok c2 => .ok (update_object_pose c2)

/-- `Camera::mouse_drag_event` in exact arithmetic: the conversion of the `int`
deltas and the sums are not rounded (see `Single.Camera.mouse_drag_event` for
the `float` sums). -/
def mouse_drag_event (mouse_x mouse_y : ℤ) (c : Camera K) : Camera K :=
  update_object_pose
    { c with
      camera_pos_x_ := c.camera_pos_x_ + (mouse_x : K)
      camera_pos_y_ := c.camera_pos_y_ + (mouse_y : K) }

/-- `Camera::post_buffer_update` (its return value `true` is dropped). -/
def post_buffer_update (c : Camera K) : Camera K := c

end Camera

/-- A call of one of the camera's event handlers, with the readings of the
collaborators it consults. -/
inductive CameraEvent (K : Type) where
  | window_resized (w h : ℤ)
  | scroll_callback (gl_canvas : GLCanvas K) (delta : K)
  | mouse_drag_event (mouse_x mouse_y : ℤ)
  | recenter_camera (stage : Stage K) (fuel : ℕ)
  | update
  | post_buffer_update

namespace CameraEvent

variable {K : Type} [LinearOrderedField K]

/-- Run one handler on a camera state. -/
def apply (pow : K → K → K) (zoom_factor : K) :
    CameraEvent K → Camera K → Except Fault (Camera K)
  | .window_resized w h, c => .ok (Camera.window_resized w h c)
  | .scroll_callback gl_canvas delta, c => Camera.scroll_callback pow zoom_factor gl_canvas delta c
  | .mouse_drag_event mx my, c => .ok (Camera.mouse_drag_event mx my c)
  | .recenter_camera stage fuel, c => Camera.recenter_camera pow zoom_factor stage fuel c
  | .update, c => .ok (Camera.update c)
  | .post_buffer_update, c => .ok (Camera.post_buffer_update c)

/-- Run a finite sequence of handlers, each fully processed before the next;
the first fault ends the run. -/
def run (pow : K → K → K) (zoom_factor : K) :
    List (CameraEvent K) → Camera K → Except Fault (Camera K)
  | [], c => .ok c
  | e :: es, c =>
    match apply pow zoom_factor e c with
    | .error f => .error f
    | .ok c1 => run pow zoom_factor es c1

end CameraEvent

/-! ## Concrete states used by the examples -/

namespace Camera

variable (K : Type) [LinearOrderedField K]

/-- A camera attached to a game object before `post_initialize` has run: zero
scalars, identity matrices, identity pose on the game object. -/
def attached : Camera K :=
  { zoom_power_ := 0
    camera_pos_x_ := 0
    camera_pos_y_ := 0
    canvas_width_ := 0
    canvas_height_ := 0
    scale_ := 1
    projection := 1
    game_object := some (GameObject.mk 1) }

/-- The attached camera with a non-affine matrix written to its public
`projection` member: bottom row `(0, 0, 0, 1/2)`. -/
def projective_example : Camera K :=
  { attached K with
    canvas_width_ := 2
    canvas_height_ := 2
    projection := !![1, 0, 0, 0; 0, 1, 0, 0; 0, 0, 1, 0; 0, 0, 0, 1 / 2] }

/-- A camera that is not attached to any game object (`game_object` null). -/
def detached : Camera K :=
  { attached K with game_object := none }

end Camera

/-! ## Single-precision arithmetic

The source keeps `zoom_power_`, `camera_pos_x_`, `camera_pos_y_`, the values of
`compute_zoom` and the matrix entries in `float`.  The definitions of this part
follow the same source lines as the ones above, with every conversion, sum,
product and quotient rounded the way IEEE 754 arithmetic rounds it.  They cover
the operations whose results depend on the rounding: `compute_zoom`,
`set_initial_zoom`, `scroll_callback`, `mouse_drag_event` and
`update_object_pose`.  A statement that holds in exact arithmetic only is
checked against them. -/

/-- A floating-point datum: a finite value (a rational number), an infinity or
a NaN.  The two signed zeros are identified, which changes no comparison, sum or
product; a division by zero yields the infinity with the sign of the dividend. -/
inductive Fp where
  | fin (q : ℚ)
  | inf (negative : Bool)
  | nan
  deriving DecidableEq

namespace Fp

/-- Round a rational number to the nearest integer, a tie to the even one. -/
def rne (x : ℚ) : ℤ :=
  let f : ℤ := ⌊x⌋
  if x - f < 1 / 2 then f
  else if 1 / 2 < x - f then f + 1
  else if f % 2 = 0 then f else f + 1

/-- A binary floating-point format: `prec` significand bits, least positive
value `2 ^ emin`, finite values of magnitude below `2 ^ emax`. -/
structure Format where
  prec : ℕ
  emin : ℤ
  emax : ℤ

/-- IEEE 754 binary32, the `float` of the source. -/
def binary32 : Format := { prec := 24, emin := -149, emax := 128 }

/-- IEEE 754 binary64, the `double` of the source. -/
def binary64 : Format := { prec := 53, emin := -1074, emax := 1024 }

/-- Negation (exact in every format). -/
def neg : Fp → Fp
  | fin q => fin (-q)
  | inf s => inf (!s)
  | nan => nan

/-- The comparison `a < b`; false when either side is a NaN. -/
def lt : Fp → Fp → Bool
  | fin a, fin b => decide (a < b)
  | fin _, inf s => !s
  | inf s, fin _ => s
  | inf s, inf t => s && !t
  | _, _ => false

/-- The comparison `a > b`. -/
def gt (a b : Fp) : Bool := lt b a

namespace Format

/-- Round a rational number to the format, to nearest with ties to even: `u` is
the exponent of the unit in the last place at the magnitude of `q` (at least
`emin`, which gives the subnormal range), the significand is `q / 2 ^ u` rounded
to an integer, and a rounded magnitude of `2 ^ emax` or more overflows to the
infinity of the sign of `q`. -/
def round (f : Format) (q : ℚ) : Fp :=
  let u : ℤ := max f.emin (Int.log 2 |q| - (f.prec - 1))
  let r : ℚ := rne (q / 2 ^ u) * 2 ^ u
  if (2 : ℚ) ^ f.emax ≤ |r| then inf (decide (q < 0)) else fin r

/-- Conversion of a floating-point datum to the format (`float` to `double`,
`double` to `float`). -/
def cast (f : Format) : Fp → Fp
  | fin q => f.round q
  | inf s => inf s
  | nan => nan

/-- Conversion of an `int` to the format. -/
def ofInt (f : Format) (n : ℤ) : Fp := f.round n

/-- Addition in the format. -/
def add (f : Format) : Fp → Fp → Fp
  | fin a, fin b => f.round (a + b)
  | fin _, inf s => inf s
  | inf s, fin _ => inf s
  | inf s, inf t => if s = t then inf s else nan
  | _, _ => nan

/-- Subtraction in the format. -/
def sub (f : Format) (a b : Fp) : Fp := f.add a (neg b)

/-- Multiplication in the format. -/
def mul (f : Format) : Fp → Fp → Fp
  | fin a, fin b => f.round (a * b)
  | fin a, inf s => if a = 0 then nan else inf (xor s (decide (a < 0)))
  | inf s, fin b => if b = 0 then nan else inf (xor s (decide (b < 0)))
  | inf s, inf t => inf (xor s t)
  | _, _ => nan

/-- Division in the format. -/
def div (f : Format) : Fp → Fp → Fp
  | fin a, fin b =>
    if b = 0 then (if a = 0 then nan else inf (decide (a < 0))) else f.round (a / b)
  | fin _, inf _ => fin 0
  | inf s, fin b => inf (xor s (decide (b < 0)))
  | _, _ => nan

end Format

end Fp

namespace Single

open Fp

/-- Four-component vector of `float`. -/
abbrev vec4 := Fin 4 → Fp

/-- Four by four matrix of `float`. -/
abbrev mat4 := Matrix (Fin 4) (Fin 4) Fp

namespace vec4

/-- Accessor `vec4::x()`. -/
def x (v : vec4) : Fp := v 0

/-- Accessor `vec4::y()`. -/
def y (v : vec4) : Fp := v 1

/-- Accessor `vec4::z()`. -/
def z (v : vec4) : Fp := v 2

/-- Unary minus of a `vec4`. -/
def neg (v : vec4) : vec4 := fun i => Fp.neg (v i)

end vec4

namespace mat4

/-- Modelled from the spec: `mat4::translation` (math library, not under src/),
as in the exact embedding; no arithmetic is involved. -/
def translation (v : vec4) : mat4 :=
  !![fin 1, fin 0, fin 0, v.x;
     fin 0, fin 1, fin 0, v.y;
     fin 0, fin 0, fin 1, v.z;
     fin 0, fin 0, fin 0, fin 1]

/-- Modelled from the spec: `mat4::scale` (math library, not under src/), as in
the exact embedding; no arithmetic is involved. -/
def scale (v : vec4) : mat4 :=
  !![v.x, fin 0, fin 0, fin 0;
     fin 0, v.y, fin 0, fin 0;
     fin 0, fin 0, v.z, fin 0;
     fin 0, fin 0, fin 0, fin 1]

/-- The identity matrix. -/
def identity : mat4 := fun i j => if i = j then fin 1 else fin 0

end mat4

/-- The arithmetic of the matrix library, which is not under src/: the product
of two `mat4`, the product of a `mat4` with a `vec4`, and `mat4::inv`.  The
single-precision embedding takes it as a parameter `lib`. -/
structure MatrixLibrary where
  mul : mat4 → mat4 → mat4
  mulVec : mat4 → vec4 → vec4
  inv : mat4 → mat4

/-- Modelled from the spec: `std::pow` (C library, not under src/) on `float`
arguments, `base ^ power` for a finite base and a finite integral power: the
exact power rounded to single precision (infinity for a zero base and a negative
power).  At base 2 every such value is a power of two, zero or an infinity,
whatever the accuracy of the library.  Other arguments are outside this model
and give a NaN. -/
def pow : Fp → Fp → Fp
  | fin b, fin e =>
    if e.den = 1 then
      if b = 0 ∧ e.num < 0 then inf false else binary32.round (b ^ e.num)
    else nan
  | _, _ => nan

/-- Readings of the surface provider `gl_canvas`: pointer position (`float`)
and surface size (`int`). -/
structure GLCanvas where
  mouse_x : Fp
  mouse_y : Fp
  width : ℤ
  height : ℤ

/-- What `game_object->stage` yields to `set_initial_zoom`. -/
structure Stage where
  buffer_pose : mat4
  buffer_width_f : Fp
  buffer_height_f : Fp

/-- The scene node a camera is attached to. -/
structure GameObject where
  pose : mat4

/-- Fields of `Camera`, the scalars in `float`. -/
structure Camera where
  zoom_power_ : Fp
  camera_pos_x_ : Fp
  camera_pos_y_ : Fp
  canvas_width_ : ℤ
  canvas_height_ : ℤ
  scale_ : mat4
  projection : mat4
  game_object : Option GameObject

namespace Camera

/-- `Camera::update_object_pose` in single precision. -/
def update_object_pose (lib : MatrixLibrary) (c : Camera) : Camera :=
  match c.game_object with
  | some g =>
    let position : vec4 := ![Fp.neg c.camera_pos_x_, Fp.neg c.camera_pos_y_, fin 0, fin 1]
    let pose : mat4 := lib.mul c.scale_ (mat4.translation position)
    { c with game_object := some { g with pose := pose } }
  | none => c

/-- The pointer position in normalized device coordinates (source lines 62 to
70): the `int` sizes are converted to `float`, `win_w / 2` and the difference
are `float` operations, the product with the `double` constant and the quotient
are `double` operations, and the `vec4` holds the result as a `float`. -/
def mouse_pos_ndc (gl_canvas : GLCanvas) : vec4 :=
  let mouse_x : Fp := gl_canvas.mouse_x
  let mouse_y : Fp := gl_canvas.mouse_y
  let win_w : Fp := binary32.ofInt gl_canvas.width
  let win_h : Fp := binary32.ofInt gl_canvas.height
  ![binary32.cast (binary64.div
      (binary64.mul (fin 2) (binary32.sub mouse_x (binary32.div win_w (fin 2)))) win_w),
    binary32.cast (binary64.div
      (binary64.mul (fin (-2)) (binary32.sub mouse_y (binary32.div win_h (fin 2)))) win_h),
    fin 0, fin 1]

/-- `Camera::scroll_callback` in single precision; `pow` is `std::pow` on
`float` arguments. -/
def scroll_callback (lib : MatrixLibrary) (pow : Fp → Fp → Fp) (zoom_factor : Fp)
    (gl_canvas : GLCanvas) (delta : Fp) (c : Camera) : Except Fault Camera :=
  let mouse_pos_ndc : vec4 := mouse_pos_ndc gl_canvas
  match c.game_object with
  | none => .error .null_dereference
  | some g =>
    let vp_inv : mat4 := lib.mul g.pose (lib.inv c.projection)
    let delta_zoom : Fp := pow zoom_factor (Fp.neg delta)
    let mouse_pos : vec4 := lib.mulVec (lib.mul (lib.inv c.scale_) vp_inv) mouse_pos_ndc
    let scale_ : mat4 :=
      lib.mul (lib.mul (lib.mul c.scale_ (mat4.translation mouse_pos))
        (mat4.scale ![delta_zoom, delta_zoom, fin 1, fin 1]))
        (mat4.translation (vec4.neg mouse_pos))
    .ok (update_object_pose lib
      { c with scale_ := scale_, zoom_power_ := binary32.add c.zoom_power_ delta })

/-- `Camera::compute_zoom` in single precision. -/
def compute_zoom (pow : Fp → Fp → Fp) (zoom_factor : Fp) (c : Camera) : Fp :=
  pow zoom_factor c.zoom_power_

/-- The "zoom in" loop of `set_initial_zoom` in single precision: the `int`
canvas size is converted to `float` and compared with the rounded product;
`zoom_power_ += 1.0` adds in `double` and stores the sum as a `float`. -/
def zoom_in_loop (pow : Fp → Fp → Fp) (zoom_factor : Fp) (buf_dim : vec4) :
    ℕ → Camera → Fp → Option Camera
  | 0, _, _ => none
  | fuel + 1, c, new_zoom =>
    if Fp.gt (binary32.ofInt c.canvas_width_) (binary32.mul new_zoom buf_dim.x) &&
        Fp.gt (binary32.ofInt c.canvas_height_) (binary32.mul new_zoom buf_dim.y) then
      let c1 : Camera :=
        { c with zoom_power_ := binary32.cast (binary64.add c.zoom_power_ (fin 1)) }
      zoom_in_loop pow zoom_factor buf_dim fuel c1 (compute_zoom pow zoom_factor c1)
    else some c

/-- The "zoom out" loop of `set_initial_zoom` in single precision. -/
def zoom_out_loop (pow : Fp → Fp → Fp) (zoom_factor : Fp) (buf_dim : vec4) :
    ℕ → Camera → Fp → Option Camera
  | 0, _, _ => none
  | fuel + 1, c, new_zoom =>
    if Fp.lt (binary32.ofInt c.canvas_width_) (binary32.mul new_zoom buf_dim.x) ||
        Fp.lt (binary32.ofInt c.canvas_height_) (binary32.mul new_zoom buf_dim.y) then
      let c1 : Camera :=
        { c with zoom_power_ := binary32.cast (binary64.sub c.zoom_power_ (fin 1)) }
      zoom_out_loop pow zoom_factor buf_dim fuel c1 (compute_zoom pow zoom_factor c1)
    else some c

/-- The effective content size `buf_dim` read by `set_initial_zoom`. -/
def buf_dim (lib : MatrixLibrary) (stage : Stage) : vec4 :=
  lib.mulVec stage.buffer_pose ![stage.buffer_width_f, stage.buffer_height_f, fin 0, fin 1]

/-- The search part of `set_initial_zoom` (source lines 138 to 164) in single
precision. -/
def fit_search (pow : Fp → Fp → Fp) (zoom_factor : Fp) (buf_dim : vec4) (fuel : ℕ)
    (c : Camera) : Except Fault Camera :=
  let c0 : Camera := { c with zoom_power_ := fin 0 }
  if Fp.gt (binary32.ofInt c0.canvas_width_) buf_dim.x &&
      Fp.gt (binary32.ofInt c0.canvas_height_) buf_dim.y then
    let c1 : Camera :=
      { c0 with zoom_power_ := binary32.cast (binary64.add c0.zoom_power_ (fin 1)) }
    match zoom_in_loop pow zoom_factor buf_dim fuel c1 (compute_zoom pow zoom_factor c1) with
    | none => .error .out_of_fuel
    | some c2 =>
      .ok { c2 with zoom_power_ := binary32.cast (binary64.sub c2.zoom_power_ (fin 1)) }
  else if Fp.lt (binary32.ofInt c0.canvas_width_) buf_dim.x ||
      Fp.lt (binary32.ofInt c0.canvas_height_) buf_dim.y then
    let c1 : Camera :=
      { c0 with zoom_power_ := binary32.cast (binary64.sub c0.zoom_power_ (fin 1)) }
    match zoom_out_loop pow zoom_factor buf_dim fuel c1 (compute_zoom pow zoom_factor c1) with
    | none => .error .out_of_fuel
    | some c2 => .ok c2
  else .ok c0

/-- `Camera::set_initial_zoom` in single precision. -/
def set_initial_zoom (lib : MatrixLibrary) (pow : Fp → Fp → Fp) (zoom_factor : Fp)
    (stage : Stage) (fuel : ℕ) (c : Camera) : Except Fault Camera :=
  match c.game_object with
  | none => .error .null_dereference
  | some _ =>
    match fit_search pow zoom_factor (buf_dim lib stage) fuel c with
    | .error e => .error e
    | .ok c3 =>
      let zoom : Fp := binary32.div (fin 1) (compute_zoom pow zoom_factor c3)
      .ok { c3 with scale_ := mat4.scale ![zoom, zoom, fin 1, fin 1] }

/-- `Camera::mouse_drag_event` in single precision: the `int` deltas are
converted to `float` and added to the `float` offsets. -/
def mouse_drag_event (lib : MatrixLibrary) (mouse_x mouse_y : ℤ) (c : Camera) : Camera :=
  update_object_pose lib
    { c with
      camera_pos_x_ := binary32.add c.camera_pos_x_ (binary32.ofInt mouse_x)
      camera_pos_y_ := binary32.add c.camera_pos_y_ (binary32.ofInt mouse_y) }

/-- A camera attached to a game object: zero scalars, identity matrices. -/
def attached : Camera :=
  { zoom_power_ := fin 0
    camera_pos_x_ := fin 0
    camera_pos_y_ := fin 0
    canvas_width_ := 0
    canvas_height_ := 0
    scale_ := mat4.identity
    projection := mat4.identity
    game_object := some (GameObject.mk mat4.identity) }

end Camera

end Single

open Camera

/-! ## Facts about the matrix library -/

section MatrixFacts

variable {K : Type} [Field K]

lemma mat4.inv_eq_nonsing_inv (m : mat4 K) : mat4.inv m = m⁻¹ := by
  simp [mat4.inv, Matrix.inv_def]

lemma mat4.inv_mul_self (m : mat4 K) (h : Matrix.det m ≠ 0) : mat4.inv m * m = 1 := by
  rw [mat4.inv_eq_nonsing_inv]
  exact Matrix.nonsing_inv_mul m (isUnit_iff_ne_zero.mpr h)

lemma mat4.mul_inv_self (m : mat4 K) (h : Matrix.det m ≠ 0) : m * mat4.inv m = 1 := by
  rw [mat4.inv_eq_nonsing_inv]
  exact Matrix.mul_nonsing_inv m (isUnit_iff_ne_zero.mpr h)

lemma mat4.translation_mul_translation (u v : vec4 K) :
    mat4.translation u * mat4.translation v = mat4.translation (u + v) := by
  ext i j
  fin_cases i <;> fin_cases j <;>
    simp [mat4.translation, Matrix.mul_apply, Fin.sum_univ_four, vec4.x, vec4.y, vec4.z,
      Matrix.vecHead, Matrix.vecTail, add_comm]

lemma mat4.translation_neg_mul_translation (v : vec4 K) :
    mat4.translation (-v) * mat4.translation v = 1 := by
  rw [mat4.translation_mul_translation]
  ext i j
  fin_cases i <;> fin_cases j <;>
    simp [mat4.translation, vec4.x, vec4.y, vec4.z, Matrix.vecHead, Matrix.vecTail]

lemma mat4.scale_mul_scale (a b : K) :
    mat4.scale ![a, a, 1, 1] * mat4.scale ![b, b, 1, 1] = mat4.scale ![a * b, a * b, 1, 1] := by
  ext i j
  fin_cases i <;> fin_cases j <;>
    simp [mat4.scale, Matrix.mul_apply, Fin.sum_univ_four, vec4.x, vec4.y, vec4.z,
      Matrix.vecHead, Matrix.vecTail]

/-- The zoom step `translation m * scale z * translation (-m)` applied to the
pivot `m` itself. -/
lemma mat4.pivot_mulVec (m : vec4 K) (z : K) :
    Matrix.mulVec (mat4.translation m * mat4.scale ![z, z, 1, 1] * mat4.translation (-m)) m =
      ![(z * (1 - m 3) + m 3) * m 0, (z * (1 - m 3) + m 3) * m 1, m 2, m 3] := by
  ext i
  fin_cases i <;>
    simp [mat4.translation, mat4.scale, Matrix.mul_apply, Matrix.mulVec, Matrix.dotProduct,
      Fin.sum_univ_four, vec4.x, vec4.y, vec4.z, Matrix.vecHead, Matrix.vecTail] <;> ring

lemma mat4.det_translation (v : vec4 K) : Matrix.det (mat4.translation v) = 1 := by
  simp [mat4.translation, Matrix.det_succ_row_zero, Fin.sum_univ_succ, Matrix.submatrix,
    Matrix.vecHead, Matrix.vecTail, Fin.succAbove]

lemma mat4.det_scale (v : vec4 K) : Matrix.det (mat4.scale v) = v.x * v.y * v.z := by
  simp [mat4.scale, Matrix.det_succ_row_zero, Fin.sum_univ_succ, Matrix.submatrix,
    Matrix.vecHead, Matrix.vecTail, Fin.succAbove, mul_assoc]

lemma vec4.bottom_eq_single : (![0, 0, 0, 1] : vec4 K) = Pi.single 3 1 := by
  ext i
  fin_cases i <;> simp

/-- The inverse of an invertible matrix with bottom row `(0, 0, 0, 1)` has the
same bottom row. -/
lemma mat4.inv_bottom_row (p : mat4 K) (hdet : Matrix.det p ≠ 0)
    (hrow : p 3 = ![0, 0, 0, 1]) : mat4.inv p 3 = ![0, 0, 0, 1] := by
  have h1 : (p * mat4.inv p) 3 = (1 : mat4 K) 3 := by rw [mat4.mul_inv_self p hdet]
  rw [Matrix.mul_apply_eq_vecMul, hrow, vec4.bottom_eq_single, Matrix.single_one_vecMul] at h1
  rw [h1, vec4.bottom_eq_single]
  ext j
  simp [Matrix.one_apply, Pi.single_apply, eq_comm]

lemma mat4.translation_bottom_row (v : vec4 K) : mat4.translation v 3 = ![0, 0, 0, 1] := by
  ext j
  fin_cases j <;> simp [mat4.translation, Matrix.vecHead, Matrix.vecTail]

lemma mat4.translation_zero (w : K) :
    mat4.translation ![0, 0, 0, w] = (1 : mat4 K) := by
  ext i j
  fin_cases i <;> fin_cases j <;>
    simp [mat4.translation, vec4.x, vec4.y, vec4.z, Matrix.vecHead, Matrix.vecTail]

lemma mat4.inv_eq_of_mul_eq_one (a b : mat4 K) (h : a * b = 1) :
    mat4.inv a = b := by
  rw [mat4.inv_eq_nonsing_inv]
  exact Matrix.inv_eq_right_inv h

lemma mat4.inv_set_ortho_projection (r t : K) (hr : r ≠ 0) (ht : t ≠ 0)
    (h2 : (2 : K) ≠ 0) :
    mat4.inv (mat4.set_ortho_projection r t (-1) 1) =
      !![r, 0, 0, 0; 0, t, 0, 0; 0, 0, -1, 0; 0, 0, 0, 1] := by
  apply mat4.inv_eq_of_mul_eq_one
  have h11 : (1 : K) - -1 = 2 := by ring
  ext i j
  fin_cases i <;> fin_cases j <;>
    simp [mat4.set_ortho_projection, Matrix.mul_apply, Fin.sum_univ_four, Matrix.vecHead,
      Matrix.vecTail, hr, ht, h11, h2]

lemma mat4.scale_one : mat4.scale ![1, 1, 1, 1] = (1 : mat4 K) := by
  ext i j
  fin_cases i <;> fin_cases j <;>
    simp [mat4.scale, vec4.x, vec4.y, vec4.z, Matrix.vecHead, Matrix.vecTail]

lemma mat4.inv_one : mat4.inv (1 : mat4 K) = 1 :=
  mat4.inv_eq_of_mul_eq_one 1 1 (Matrix.one_mul 1)

end MatrixFacts

/-! ## Facts about `scroll_callback` and `update_object_pose` -/

section ScrollFacts

variable {K : Type} [LinearOrderedField K]

/-- The pose pushed by `update_object_pose`. -/
lemma Camera.update_object_pose_bound (c : Camera K) (g : GameObject K)
    (hg : c.game_object = some g) :
    update_object_pose c =
      { c with game_object := some (GameObject.mk
          (c.scale_ * mat4.translation ![-c.camera_pos_x_, -c.camera_pos_y_, 0, 1])) } := by
  simp [update_object_pose, hg]

lemma Camera.update_object_pose_unbound (c : Camera K) (hg : c.game_object = none) :
    update_object_pose c = c := by
  simp [update_object_pose, hg]

/-- With an invertible `scale_` and the pose invariant, the pivot `mouse_pos`
of `scroll_callback` is `translation(-pan) * inv(projection) * ndc`, and the
call returns the state written out here. -/
lemma Camera.scroll_callback_bound (pow : K → K → K) (b : K) (cv : GLCanvas K) (delta : K)
    (c : Camera K) (g : GameObject K) (hg : c.game_object = some g)
    (hpose : g.pose = c.scale_ * mat4.translation ![-c.camera_pos_x_, -c.camera_pos_y_, 0, 1])
    (hS : Matrix.det c.scale_ ≠ 0) (m : vec4 K)
    (hm : m = Matrix.mulVec (mat4.translation ![-c.camera_pos_x_, -c.camera_pos_y_, 0, 1] *
              mat4.inv c.projection) (mouse_pos_ndc cv)) :
    scroll_callback pow b cv delta c =
      .ok { c with
        scale_ := c.scale_ * (mat4.translation m *
          mat4.scale ![pow b (-delta), pow b (-delta), 1, 1] * mat4.translation (-m))
        zoom_power_ := c.zoom_power_ + delta
        game_object := some (GameObject.mk (c.scale_ * (mat4.translation m *
          mat4.scale ![pow b (-delta), pow b (-delta), 1, 1] * mat4.translation (-m)) *
          mat4.translation ![-c.camera_pos_x_, -c.camera_pos_y_, 0, 1])) } := by
  have h : mat4.inv c.scale_ * (g.pose * mat4.inv c.projection) =
      mat4.translation ![-c.camera_pos_x_, -c.camera_pos_y_, 0, 1] * mat4.inv c.projection := by
    rw [hpose, ← Matrix.mul_assoc, ← Matrix.mul_assoc, mat4.inv_mul_self _ hS, Matrix.one_mul]
  subst hm
  simp only [scroll_callback, hg, h, update_object_pose, Matrix.mul_assoc]


/-- The pose pushed by `scroll_callback`, applied to the unprojected pointer:
the pivot `m` has its x and y multiplied by `z * (1 - m.w) + m.w`. -/
lemma Camera.scroll_callback_pose_mulVec (pow : K → K → K) (b : K) (cv : GLCanvas K) (delta : K)
    (c : Camera K) (g : GameObject K) (hg : c.game_object = some g)
    (hpose : g.pose = c.scale_ * mat4.translation ![-c.camera_pos_x_, -c.camera_pos_y_, 0, 1])
    (hS : Matrix.det c.scale_ ≠ 0) (m : vec4 K)
    (hm : m = Matrix.mulVec (mat4.translation ![-c.camera_pos_x_, -c.camera_pos_y_, 0, 1] *
              mat4.inv c.projection) (mouse_pos_ndc cv)) :
    ∃ c1 g1, scroll_callback pow b cv delta c = .ok c1 ∧ c1.game_object = some g1 ∧
      Matrix.mulVec (g1.pose * mat4.inv c.projection) (mouse_pos_ndc cv) =
        Matrix.mulVec c.scale_
          ![(pow b (-delta) * (1 - m 3) + m 3) * m 0,
            (pow b (-delta) * (1 - m 3) + m 3) * m 1, m 2, m 3] ∧
      Matrix.mulVec (g.pose * mat4.inv c.projection) (mouse_pos_ndc cv) =
        Matrix.mulVec c.scale_ m := by
  refine ⟨_, _, Camera.scroll_callback_bound pow b cv delta c g hg hpose hS m hm, rfl, ?_, ?_⟩
  · simp only []
    rw [Matrix.mul_assoc, Matrix.mul_assoc, ← Matrix.mulVec_mulVec, ← Matrix.mulVec_mulVec, ← hm,
      mat4.pivot_mulVec]
  · rw [hpose, Matrix.mul_assoc, ← Matrix.mulVec_mulVec, ← hm]

/-- Two zoom steps about the same pivot multiply their scale factors. -/
lemma mat4.pivot_mul_pivot (s : mat4 K) (m : vec4 K) (z1 z2 : K) :
    s * (mat4.translation m * mat4.scale ![z1, z1, 1, 1] * mat4.translation (-m)) *
      (mat4.translation m * mat4.scale ![z2, z2, 1, 1] * mat4.translation (-m)) =
    s * (mat4.translation m * mat4.scale ![z1 * z2, z1 * z2, 1, 1] *
      mat4.translation (-m)) := by
  rw [← mat4.scale_mul_scale]
  simp only [Matrix.mul_assoc]
  rw [← Matrix.mul_assoc (mat4.translation (-m)) (mat4.translation m),
    mat4.translation_neg_mul_translation, Matrix.one_mul]

/-- A zoom step with a non-zero factor keeps the matrix invertible. -/
lemma mat4.det_pivot_ne_zero (s : mat4 K) (m : vec4 K) (z : K) (hs : Matrix.det s ≠ 0)
    (hz : z ≠ 0) :
    Matrix.det (s * (mat4.translation m * mat4.scale ![z, z, 1, 1] *
      mat4.translation (-m))) ≠ 0 := by
  rw [Matrix.det_mul, Matrix.det_mul, Matrix.det_mul, mat4.det_translation,
    mat4.det_translation, mat4.det_scale]
  simp [vec4.x, vec4.y, vec4.z, hs, hz]

/-- Two zoom steps at the same pointer position compose into one step whose
scale factor is the product of the two. -/
lemma Camera.scroll_callback_twice (pow : K → K → K) (b : K) (cv : GLCanvas K) (d1 d2 : K)
    (c : Camera K) (g : GameObject K) (hg : c.game_object = some g)
    (hpose : g.pose = c.scale_ * mat4.translation ![-c.camera_pos_x_, -c.camera_pos_y_, 0, 1])
    (hS : Matrix.det c.scale_ ≠ 0) (hz : pow b (-d1) ≠ 0) (m : vec4 K)
    (hm : m = Matrix.mulVec (mat4.translation ![-c.camera_pos_x_, -c.camera_pos_y_, 0, 1] *
              mat4.inv c.projection) (mouse_pos_ndc cv)) :
    (scroll_callback pow b cv d1 c).bind (scroll_callback pow b cv d2) =
      .ok { c with
        scale_ := c.scale_ * (mat4.translation m *
          mat4.scale ![pow b (-d1) * pow b (-d2), pow b (-d1) * pow b (-d2), 1, 1] *
          mat4.translation (-m))
        zoom_power_ := c.zoom_power_ + d1 + d2
        game_object := some (GameObject.mk (c.scale_ * (mat4.translation m *
          mat4.scale ![pow b (-d1) * pow b (-d2), pow b (-d1) * pow b (-d2), 1, 1] *
          mat4.translation (-m)) *
          mat4.translation ![-c.camera_pos_x_, -c.camera_pos_y_, 0, 1])) } := by
  have h2 := Camera.scroll_callback_bound pow b cv d2
    { c with
      scale_ := c.scale_ * (mat4.translation m *
        mat4.scale ![pow b (-d1), pow b (-d1), 1, 1] * mat4.translation (-m))
      zoom_power_ := c.zoom_power_ + d1
      game_object := some (GameObject.mk (c.scale_ * (mat4.translation m *
        mat4.scale ![pow b (-d1), pow b (-d1), 1, 1] * mat4.translation (-m)) *
        mat4.translation ![-c.camera_pos_x_, -c.camera_pos_y_, 0, 1])) }
    _ rfl rfl (mat4.det_pivot_ne_zero c.scale_ m _ hS hz) m hm
  dsimp only at h2
  rw [mat4.pivot_mul_pivot] at h2
  rw [Camera.scroll_callback_bound pow b cv d1 c g hg hpose hS m hm]
  exact h2

end ScrollFacts

/-! ## Facts about the loops of `set_initial_zoom` -/

section LoopFacts

variable {K : Type} [LinearOrderedField K]

/-- The zoom-in loop started at power `z` stops at `z + d`, the first power at
which its condition fails, when given more than `d` units of fuel. -/
lemma Camera.zoom_in_loop_eq (pow : K → K → K) (b : K) (bd : vec4 K) :
    ∀ (d : ℕ) (c : Camera K),
      (∀ j : ℕ, j < d → ((c.canvas_width_ : K) > pow b (c.zoom_power_ + j) * bd.x ∧
        (c.canvas_height_ : K) > pow b (c.zoom_power_ + j) * bd.y)) →
      ¬ ((c.canvas_width_ : K) > pow b (c.zoom_power_ + d) * bd.x ∧
        (c.canvas_height_ : K) > pow b (c.zoom_power_ + d) * bd.y) →
      ∀ fuel : ℕ, d < fuel →
        zoom_in_loop pow b bd fuel c (pow b c.zoom_power_) =
          some { c with zoom_power_ := c.zoom_power_ + d } := by
  intro d
  induction d with
  | zero =>
    intro c _ hstop fuel hfuel
    obtain ⟨f, rfl⟩ : ∃ f, fuel = f + 1 := ⟨fuel - 1, by omega⟩
    simp only [Nat.cast_zero, add_zero] at hstop
    simp [zoom_in_loop, hstop]
  | succ d ih =>
    intro c hgo hstop fuel hfuel
    obtain ⟨f, rfl⟩ : ∃ f, fuel = f + 1 := ⟨fuel - 1, by omega⟩
    have h0 := hgo 0 (Nat.succ_pos d)
    simp only [Nat.cast_zero, add_zero] at h0
    have hrec := ih { c with zoom_power_ := c.zoom_power_ + 1 }
      (by
        intro j hj
        have := hgo (j + 1) (by omega)
        simpa [add_assoc, add_comm (1 : K)] using this)
      (by simpa [add_assoc, add_comm (1 : K)] using hstop)
      f (by omega)
    simp only [zoom_in_loop, h0, and_self, if_true, compute_zoom]
    rw [hrec]
    simp [add_assoc, add_comm (1 : K)]

/-- The zoom-out loop started at power `z` stops at `z - d`, the first power at
which its condition fails, when given more than `d` units of fuel. -/
lemma Camera.zoom_out_loop_eq (pow : K → K → K) (b : K) (bd : vec4 K) :
    ∀ (d : ℕ) (c : Camera K),
      (∀ j : ℕ, j < d → ((c.canvas_width_ : K) < pow b (c.zoom_power_ - j) * bd.x ∨
        (c.canvas_height_ : K) < pow b (c.zoom_power_ - j) * bd.y)) →
      ¬ ((c.canvas_width_ : K) < pow b (c.zoom_power_ - d) * bd.x ∨
        (c.canvas_height_ : K) < pow b (c.zoom_power_ - d) * bd.y) →
      ∀ fuel : ℕ, d < fuel →
        zoom_out_loop pow b bd fuel c (pow b c.zoom_power_) =
          some { c with zoom_power_ := c.zoom_power_ - d } := by
  intro d
  induction d with
  | zero =>
    intro c _ hstop fuel hfuel
    obtain ⟨f, rfl⟩ : ∃ f, fuel = f + 1 := ⟨fuel - 1, by omega⟩
    simp only [Nat.cast_zero, sub_zero] at hstop
    simp [zoom_out_loop, hstop]
  | succ d ih =>
    intro c hgo hstop fuel hfuel
    obtain ⟨f, rfl⟩ : ∃ f, fuel = f + 1 := ⟨fuel - 1, by omega⟩
    have h0 := hgo 0 (Nat.succ_pos d)
    simp only [Nat.cast_zero, sub_zero] at h0
    have hrec := ih { c with zoom_power_ := c.zoom_power_ - 1 }
      (by
        intro j hj
        have := hgo (j + 1) (by omega)
        simpa [sub_sub, add_comm (1 : K)] using this)
      (by simpa [sub_sub, add_comm (1 : K)] using hstop)
      f (by omega)
    simp only [zoom_out_loop, h0, if_true, compute_zoom]
    rw [hrec]
    simp [sub_sub, add_comm (1 : K)]

/-- More fuel does not change what the zoom-in loop returns. -/
lemma Camera.zoom_in_loop_mono (pow : K → K → K) (b : K) (bd : vec4 K) :
    ∀ (fuel : ℕ) (c r : Camera K) (z : K), zoom_in_loop pow b bd fuel c z = some r →
      ∀ k, zoom_in_loop pow b bd (fuel + k) c z = some r := by
  intro fuel
  induction fuel with
  | zero => intro c r z h; simp [zoom_in_loop] at h
  | succ f ih =>
    intro c r z h k
    rw [show f + 1 + k = (f + k) + 1 by omega]
    simp only [zoom_in_loop] at h ⊢
    split_ifs at h ⊢ with hc
    · exact ih _ _ _ h k
    · exact h

/-- More fuel does not change what the zoom-out loop returns. -/
lemma Camera.zoom_out_loop_mono (pow : K → K → K) (b : K) (bd : vec4 K) :
    ∀ (fuel : ℕ) (c r : Camera K) (z : K), zoom_out_loop pow b bd fuel c z = some r →
      ∀ k, zoom_out_loop pow b bd (fuel + k) c z = some r := by
  intro fuel
  induction fuel with
  | zero => intro c r z h; simp [zoom_out_loop] at h
  | succ f ih =>
    intro c r z h k
    rw [show f + 1 + k = (f + k) + 1 by omega]
    simp only [zoom_out_loop] at h ⊢
    split_ifs at h ⊢ with hc
    · exact ih _ _ _ h k
    · exact h

end LoopFacts

section FitFacts

lemma Camera.rpow_one_add_nat (b : ℝ) (j : ℕ) : Real.rpow b (0 + 1 + (j : ℝ)) = b ^ (j + 1) := by
  have h : (0 : ℝ) + 1 + (j : ℝ) = ((j + 1 : ℕ) : ℝ) := by push_cast; ring
  rw [h, Real.rpow_eq_pow, Real.rpow_natCast]

lemma Camera.rpow_neg_one_sub_nat (b : ℝ) (hb : 0 < b) (j : ℕ) :
    Real.rpow b (0 - 1 - (j : ℝ)) = (b ^ (j + 1))⁻¹ := by
  have h : (0 : ℝ) - 1 - (j : ℝ) = -((j + 1 : ℕ) : ℝ) := by push_cast; ring
  rw [h, Real.rpow_eq_pow, Real.rpow_neg hb.le, Real.rpow_natCast]

/-- The zoom-in loop, entered at power one, stops: after `d` increments, at the
first power `d + 1` whose strict fit fails. -/
lemma Camera.zoom_in_loop_stops (b : ℝ) (hb : 1 < b) (c : Camera ℝ) (bd : vec4 ℝ)
    (hx : 0 < bd.x) :
    ∃ d : ℕ,
      (∀ fuel, d < fuel →
        zoom_in_loop Real.rpow b bd fuel { c with zoom_power_ := 0 + 1 }
            (compute_zoom Real.rpow b { c with zoom_power_ := 0 + 1 }) =
          some { c with zoom_power_ := 0 + 1 + (d : ℝ) }) ∧
      (∀ j : ℕ, j < d → ((c.canvas_width_ : ℝ) > b ^ (j + 1) * bd.x ∧
        (c.canvas_height_ : ℝ) > b ^ (j + 1) * bd.y)) ∧
      ¬ ((c.canvas_width_ : ℝ) > b ^ (d + 1) * bd.x ∧
          (c.canvas_height_ : ℝ) > b ^ (d + 1) * bd.y) := by
  classical
  have hex : ∃ j : ℕ, ¬ ((c.canvas_width_ : ℝ) > b ^ (j + 1) * bd.x ∧
      (c.canvas_height_ : ℝ) > b ^ (j + 1) * bd.y) := by
    obtain ⟨n, hn⟩ := pow_unbounded_of_one_lt ((c.canvas_width_ : ℝ) / bd.x) hb
    refine ⟨n, fun h => ?_⟩
    have h1 : (c.canvas_width_ : ℝ) < b ^ n * bd.x := (div_lt_iff₀ hx).mp hn
    have h2 : b ^ n * bd.x ≤ b ^ (n + 1) * bd.x :=
      mul_le_mul_of_nonneg_right (pow_le_pow_right₀ hb.le (Nat.le_succ n)) hx.le
    linarith [h.1]
  have hmin : ∀ j : ℕ, j < Nat.find hex → ((c.canvas_width_ : ℝ) > b ^ (j + 1) * bd.x ∧
      (c.canvas_height_ : ℝ) > b ^ (j + 1) * bd.y) := by
    intro j hj
    have := Nat.find_min hex hj
    simpa only [not_not] using this
  refine ⟨Nat.find hex, ?_, hmin, Nat.find_spec hex⟩
  intro fuel hfuel
  exact Camera.zoom_in_loop_eq Real.rpow b bd (Nat.find hex)
    { c with zoom_power_ := 0 + 1 }
    (by
      intro j hj
      simpa only [Camera.rpow_one_add_nat] using hmin j hj)
    (by simpa only [Camera.rpow_one_add_nat] using Nat.find_spec hex)
    fuel hfuel

/-- The zoom-out loop, entered at power minus one, stops: after `d` decrements,
at the first power `-(d + 1)` at which the content fits. -/
lemma Camera.zoom_out_loop_stops (b : ℝ) (hb : 1 < b) (c : Camera ℝ) (bd : vec4 ℝ)
    (hW : 0 < (c.canvas_width_ : ℝ)) (hH : 0 < (c.canvas_height_ : ℝ)) :
    ∃ d : ℕ,
      (∀ fuel, d < fuel →
        zoom_out_loop Real.rpow b bd fuel { c with zoom_power_ := 0 - 1 }
            (compute_zoom Real.rpow b { c with zoom_power_ := 0 - 1 }) =
          some { c with zoom_power_ := 0 - 1 - (d : ℝ) }) ∧
      ((b ^ (d + 1))⁻¹ * bd.x ≤ (c.canvas_width_ : ℝ) ∧
        (b ^ (d + 1))⁻¹ * bd.y ≤ (c.canvas_height_ : ℝ)) ∧
      ∀ j : ℕ, j < d → ¬ ((b ^ (j + 1))⁻¹ * bd.x ≤ (c.canvas_width_ : ℝ) ∧
        (b ^ (j + 1))⁻¹ * bd.y ≤ (c.canvas_height_ : ℝ)) := by
  classical
  have hb0 : 0 < b := by linarith
  have hex : ∃ j : ℕ, ((b ^ (j + 1))⁻¹ * bd.x ≤ (c.canvas_width_ : ℝ) ∧
      (b ^ (j + 1))⁻¹ * bd.y ≤ (c.canvas_height_ : ℝ)) := by
    obtain ⟨n, hn⟩ := pow_unbounded_of_one_lt
      (max (bd.x / (c.canvas_width_ : ℝ)) (bd.y / (c.canvas_height_ : ℝ))) hb
    have hpos : 0 < b ^ (n + 1) := pow_pos hb0 _
    have hle : b ^ n ≤ b ^ (n + 1) := pow_le_pow_right₀ hb.le (Nat.le_succ n)
    have h1 : bd.x / (c.canvas_width_ : ℝ) < b ^ (n + 1) :=
      lt_of_lt_of_le (lt_of_le_of_lt (le_max_left _ _) hn) hle
    have h2 : bd.y / (c.canvas_height_ : ℝ) < b ^ (n + 1) :=
      lt_of_lt_of_le (lt_of_le_of_lt (le_max_right _ _) hn) hle
    rw [div_lt_iff₀ hW] at h1
    rw [div_lt_iff₀ hH] at h2
    refine ⟨n, ?_, ?_⟩
    · rw [inv_mul_le_iff₀ hpos]; exact h1.le
    · rw [inv_mul_le_iff₀ hpos]; exact h2.le
  refine ⟨Nat.find hex, ?_, Nat.find_spec hex, fun j hj => Nat.find_min hex hj⟩
  intro fuel hfuel
  exact Camera.zoom_out_loop_eq Real.rpow b bd (Nat.find hex)
    { c with zoom_power_ := 0 - 1 }
    (by
      intro j hj
      have := Nat.find_min hex hj
      simp only [Camera.rpow_neg_one_sub_nat b hb0]
      by_contra hcon
      exact this ⟨not_lt.mp (fun h => hcon (Or.inl h)), not_lt.mp (fun h => hcon (Or.inr h))⟩)
    (by
      simp only [Camera.rpow_neg_one_sub_nat b hb0]
      rintro (h | h)
      · exact absurd (Nat.find_spec hex).1 (not_le.mpr h)
      · exact absurd (Nat.find_spec hex).2 (not_le.mpr h))
    fuel hfuel

/-- Grow branch of the fit search: it returns the last natural power `p` that
still satisfies the strict fit. -/
lemma Camera.fit_search_grow (b : ℝ) (hb : 1 < b) (c : Camera ℝ) (bd : vec4 ℝ)
    (hx : 0 < bd.x) (hW : (c.canvas_width_ : ℝ) > bd.x) (hH : (c.canvas_height_ : ℝ) > bd.y) :
    ∃ p : ℕ,
      (∀ fuel, p < fuel →
        fit_search Real.rpow b bd fuel c = .ok { c with zoom_power_ := (p : ℝ) }) ∧
      ((c.canvas_width_ : ℝ) > b ^ p * bd.x ∧ (c.canvas_height_ : ℝ) > b ^ p * bd.y) ∧
      ¬ ((c.canvas_width_ : ℝ) > b ^ (p + 1) * bd.x ∧
          (c.canvas_height_ : ℝ) > b ^ (p + 1) * bd.y) := by
  obtain ⟨d, hloop, hmin, hstop⟩ := Camera.zoom_in_loop_stops b hb c bd hx
  refine ⟨d, ?_, ?_, hstop⟩
  · intro fuel hfuel
    simp only [fit_search]
    rw [if_pos ⟨hW, hH⟩, hloop fuel hfuel]
    simp
  · rcases Nat.eq_zero_or_pos d with h0 | hpos
    · rw [h0]; simpa using And.intro hW hH
    · have := hmin (d - 1) (Nat.sub_lt hpos one_pos)
      have e : d - 1 + 1 = d := Nat.sub_add_cancel hpos
      rwa [e] at this

/-- Shrink branch of the fit search: it returns `-(p + 1)`, the first power
below zero at which the content fits. -/
lemma Camera.fit_search_shrink (b : ℝ) (hb : 1 < b) (c : Camera ℝ) (bd : vec4 ℝ)
    (hW : 0 < (c.canvas_width_ : ℝ)) (hH : 0 < (c.canvas_height_ : ℝ))
    (hlt : (c.canvas_width_ : ℝ) < bd.x ∨ (c.canvas_height_ : ℝ) < bd.y) :
    ∃ p : ℕ,
      (∀ fuel, p < fuel →
        fit_search Real.rpow b bd fuel c = .ok { c with zoom_power_ := -((p : ℝ) + 1) }) ∧
      ((b ^ (p + 1))⁻¹ * bd.x ≤ (c.canvas_width_ : ℝ) ∧
        (b ^ (p + 1))⁻¹ * bd.y ≤ (c.canvas_height_ : ℝ)) ∧
      ∀ j : ℕ, j < p → ¬ ((b ^ (j + 1))⁻¹ * bd.x ≤ (c.canvas_width_ : ℝ) ∧
        (b ^ (j + 1))⁻¹ * bd.y ≤ (c.canvas_height_ : ℝ)) := by
  obtain ⟨d, hloop, hfit, hfirst⟩ := Camera.zoom_out_loop_stops b hb c bd hW hH
  have hnot : ¬ ((c.canvas_width_ : ℝ) > bd.x ∧ (c.canvas_height_ : ℝ) > bd.y) := by
    rintro ⟨h1, h2⟩
    rcases hlt with h | h <;> linarith
  refine ⟨d, ?_, hfit, hfirst⟩
  intro fuel hfuel
  simp only [fit_search]
  rw [if_neg hnot, if_pos hlt, hloop fuel hfuel]
  simp only [Except.ok.injEq]
  congr 1
  ring

/-- More fuel does not change what the fit search returns. -/
lemma Camera.fit_search_mono {K : Type} [LinearOrderedField K] (pow : K → K → K) (b : K)
    (bd : vec4 K) (fuel : ℕ) (c r : Camera K)
    (h : fit_search pow b bd fuel c = .ok r) (k : ℕ) :
    fit_search pow b bd (fuel + k) c = .ok r := by
  simp only [fit_search] at h ⊢
  split_ifs at h ⊢ with h1 h2
  · cases hl : zoom_in_loop pow b bd fuel { c with zoom_power_ := 0 + 1 }
        (compute_zoom pow b { c with zoom_power_ := 0 + 1 }) with
    | none => rw [hl] at h; cases h
    | some c2 =>
      rw [hl] at h
      rw [Camera.zoom_in_loop_mono pow b bd fuel _ c2 _ hl k]
      exact h
  · cases hl : zoom_out_loop pow b bd fuel { c with zoom_power_ := 0 - 1 }
        (compute_zoom pow b { c with zoom_power_ := 0 - 1 }) with
    | none => rw [hl] at h; cases h
    | some c2 =>
      rw [hl] at h
      rw [Camera.zoom_out_loop_mono pow b bd fuel _ c2 _ hl k]
      exact h
  · exact h

/-- More fuel does not change what `set_initial_zoom` returns. -/
lemma Camera.set_initial_zoom_mono {K : Type} [LinearOrderedField K] (pow : K → K → K) (b : K)
    (stage : Stage K) (fuel : ℕ) (c s : Camera K)
    (h : set_initial_zoom pow b stage fuel c = .ok s) (k : ℕ) :
    set_initial_zoom pow b stage (fuel + k) c = .ok s := by
  simp only [set_initial_zoom] at h ⊢
  cases hg : c.game_object with
  | none => rw [hg] at h; cases h
  | some g =>
    simp only [hg] at h ⊢
    cases hf : fit_search pow b (buf_dim stage) fuel c with
    | error e => rw [hf] at h; cases h
    | ok c3 =>
      rw [hf] at h
      rw [Camera.fit_search_mono pow b (buf_dim stage) fuel c c3 hf k]
      exact h

lemma Camera.set_initial_zoom_of_fit_search {K : Type} [LinearOrderedField K]
    (pow : K → K → K) (b : K) (stage : Stage K) (fuel : ℕ) (c c3 : Camera K) (g : GameObject K)
    (hg : c.game_object = some g)
    (h : fit_search pow b (buf_dim stage) fuel c = .ok c3) :
    set_initial_zoom pow b stage fuel c =
      .ok { c3 with
        scale_ := mat4.scale ![1 / pow b c3.zoom_power_, 1 / pow b c3.zoom_power_, 1, 1] } := by
  simp [set_initial_zoom, hg, h, compute_zoom]

/-- What `set_initial_zoom` returns over the reals, for a base above one and
positive sizes: the power is an integer `p`, characterised per branch. -/
lemma Camera.set_initial_zoom_spec (b : ℝ) (hb : 1 < b) (c : Camera ℝ) (g : GameObject ℝ)
    (hg : c.game_object = some g) (stage : Stage ℝ)
    (hx : 0 < (buf_dim stage).x)
    (hW : 0 < (c.canvas_width_ : ℝ)) (hH : 0 < (c.canvas_height_ : ℝ)) :
    ∃ p : ℤ,
      (∀ fuel, p.natAbs < fuel →
        set_initial_zoom Real.rpow b stage fuel c =
          .ok { c with
            zoom_power_ := (p : ℝ)
            scale_ := mat4.scale ![1 / b ^ p, 1 / b ^ p, 1, 1] }) ∧
      (((c.canvas_width_ : ℝ) > (buf_dim stage).x ∧ (c.canvas_height_ : ℝ) > (buf_dim stage).y) →
        0 ≤ p ∧
        ((c.canvas_width_ : ℝ) > b ^ p * (buf_dim stage).x ∧
          (c.canvas_height_ : ℝ) > b ^ p * (buf_dim stage).y) ∧
        ¬ ((c.canvas_width_ : ℝ) > b ^ (p + 1) * (buf_dim stage).x ∧
          (c.canvas_height_ : ℝ) > b ^ (p + 1) * (buf_dim stage).y)) ∧
      (((c.canvas_width_ : ℝ) < (buf_dim stage).x ∨ (c.canvas_height_ : ℝ) < (buf_dim stage).y) →
        p ≤ -1 ∧
        (b ^ p * (buf_dim stage).x ≤ (c.canvas_width_ : ℝ) ∧
          b ^ p * (buf_dim stage).y ≤ (c.canvas_height_ : ℝ)) ∧
        ∀ q : ℤ, p < q → q ≤ -1 →
          ¬ (b ^ q * (buf_dim stage).x ≤ (c.canvas_width_ : ℝ) ∧
            b ^ q * (buf_dim stage).y ≤ (c.canvas_height_ : ℝ))) ∧
      (¬ ((c.canvas_width_ : ℝ) > (buf_dim stage).x ∧
            (c.canvas_height_ : ℝ) > (buf_dim stage).y) →
        ¬ ((c.canvas_width_ : ℝ) < (buf_dim stage).x ∨
            (c.canvas_height_ : ℝ) < (buf_dim stage).y) → p = 0) := by
  by_cases hgrow : (c.canvas_width_ : ℝ) > (buf_dim stage).x ∧
      (c.canvas_height_ : ℝ) > (buf_dim stage).y
  · obtain ⟨n, hrun, hfit, hnext⟩ :=
      Camera.fit_search_grow b hb c (buf_dim stage) hx hgrow.1 hgrow.2
    refine ⟨(n : ℤ), ?_, ?_, ?_, ?_⟩
    · intro fuel hfuel
      rw [Camera.set_initial_zoom_of_fit_search Real.rpow b stage fuel c _ g hg
        (hrun fuel (by simpa using hfuel))]
      simp [Real.rpow_natCast]
    · intro _
      refine ⟨Int.natCast_nonneg n, by simpa using hfit, ?_⟩
      have e : b ^ ((n : ℤ) + 1) = b ^ (n + 1) := by
        rw [← zpow_natCast]; push_cast; rfl
      rw [e]; exact hnext
    · intro hlt
      exfalso
      rcases hlt with h | h <;> linarith [hgrow.1, hgrow.2]
    · intro h; exact absurd hgrow h
  · by_cases hshrink : (c.canvas_width_ : ℝ) < (buf_dim stage).x ∨
        (c.canvas_height_ : ℝ) < (buf_dim stage).y
    · obtain ⟨n, hrun, hfit, hfirst⟩ :=
        Camera.fit_search_shrink b hb c (buf_dim stage) hW hH hshrink
      have e : ∀ j : ℕ, b ^ (-((j : ℤ) + 1)) = (b ^ (j + 1))⁻¹ := by
        intro j
        rw [zpow_neg, ← zpow_natCast]; push_cast; rfl
      refine ⟨-((n : ℤ) + 1), ?_, ?_, ?_, ?_⟩
      · intro fuel hfuel
        have hn : n < fuel := by
          have : (-((n : ℤ) + 1)).natAbs = n + 1 := by omega
          omega
        rw [Camera.set_initial_zoom_of_fit_search Real.rpow b stage fuel c _ g hg (hrun fuel hn)]
        have hz : Real.rpow b (-((n : ℝ) + 1)) = b ^ (-((n : ℤ) + 1)) := by
          rw [Real.rpow_eq_pow, ← Real.rpow_intCast]; push_cast; rfl
        simp only [hz]
        push_cast
        rfl
      · intro h; exact absurd h hgrow
      · intro _
        refine ⟨by omega, by rw [e]; exact hfit, ?_⟩
        intro q hq1 hq2
        obtain ⟨j, rfl⟩ : ∃ j : ℕ, q = -((j : ℤ) + 1) := ⟨(-q - 1).toNat, by omega⟩
        rw [e]
        exact hfirst j (by omega)
      · intro _ h; exact absurd hshrink h
    · refine ⟨0, ?_, ?_, ?_, ?_⟩
      · intro fuel _
        have hfs : fit_search Real.rpow b (buf_dim stage) fuel c =
            .ok { c with zoom_power_ := 0 } := by
          simp only [fit_search]
          rw [if_neg hgrow, if_neg hshrink]
        rw [Camera.set_initial_zoom_of_fit_search Real.rpow b stage fuel c _ g hg hfs]
        simp
      · intro h; exact absurd h hgrow
      · intro h; exact absurd h hshrink
      · intro _ _; rfl

/-- Any returned state of `set_initial_zoom` is the one of
`set_initial_zoom_spec`, whatever fuel produced it. -/
lemma Camera.set_initial_zoom_unique {K : Type} [LinearOrderedField K] (pow : K → K → K)
    (b : K) (stage : Stage K) (c s s1 : Camera K) (n : ℕ)
    (hn : ∀ fuel, n < fuel → set_initial_zoom pow b stage fuel c = .ok s)
    (fuel : ℕ) (h : set_initial_zoom pow b stage fuel c = .ok s1) : s1 = s := by
  have h1 := Camera.set_initial_zoom_mono pow b stage fuel c s1 h (n + 1)
  have h2 := hn (fuel + (n + 1)) (by omega)
  rw [h1] at h2
  exact Except.ok.inj h2

end FitFacts

/-! ## What the handlers leave unchanged, and the pose invariant -/

section FrameFacts

variable {K : Type} [LinearOrderedField K]

/-- The zoom-in loop changes `zoom_power_` only. -/
lemma Camera.zoom_in_loop_frame (pow : K → K → K) (b : K) (bd : vec4 K) :
    ∀ (fuel : ℕ) (c r : Camera K) (z : K), zoom_in_loop pow b bd fuel c z = some r →
      ∃ p, r = { c with zoom_power_ := p } := by
  intro fuel
  induction fuel with
  | zero => intro c r z h; simp [zoom_in_loop] at h
  | succ f ih =>
    intro c r z h
    simp only [zoom_in_loop] at h
    split_ifs at h with hc
    · obtain ⟨p, hp⟩ := ih _ _ _ h
      exact ⟨p, hp⟩
    · cases h; exact ⟨_, rfl⟩

/-- The zoom-out loop changes `zoom_power_` only. -/
lemma Camera.zoom_out_loop_frame (pow : K → K → K) (b : K) (bd : vec4 K) :
    ∀ (fuel : ℕ) (c r : Camera K) (z : K), zoom_out_loop pow b bd fuel c z = some r →
      ∃ p, r = { c with zoom_power_ := p } := by
  intro fuel
  induction fuel with
  | zero => intro c r z h; simp [zoom_out_loop] at h
  | succ f ih =>
    intro c r z h
    simp only [zoom_out_loop] at h
    split_ifs at h with hc
    · obtain ⟨p, hp⟩ := ih _ _ _ h
      exact ⟨p, hp⟩
    · cases h; exact ⟨_, rfl⟩

/-- The fit search changes `zoom_power_` only. -/
lemma Camera.fit_search_frame (pow : K → K → K) (b : K) (bd : vec4 K) (fuel : ℕ)
    (c r : Camera K) (h : fit_search pow b bd fuel c = .ok r) :
    ∃ p, r = { c with zoom_power_ := p } := by
  simp only [fit_search] at h
  split_ifs at h with h1 h2
  · cases hl : zoom_in_loop pow b bd fuel { c with zoom_power_ := 0 + 1 }
        (compute_zoom pow b { c with zoom_power_ := 0 + 1 }) with
    | none => rw [hl] at h; cases h
    | some c2 =>
      rw [hl] at h
      obtain ⟨p, rfl⟩ := Camera.zoom_in_loop_frame pow b bd fuel _ c2 _ hl
      cases h
      exact ⟨_, rfl⟩
  · cases hl : zoom_out_loop pow b bd fuel { c with zoom_power_ := 0 - 1 }
        (compute_zoom pow b { c with zoom_power_ := 0 - 1 }) with
    | none => rw [hl] at h; cases h
    | some c2 =>
      rw [hl] at h
      obtain ⟨p, rfl⟩ := Camera.zoom_out_loop_frame pow b bd fuel _ c2 _ hl
      cases h
      exact ⟨_, rfl⟩
  · cases h; exact ⟨_, rfl⟩

/-- A returning `set_initial_zoom` had a bound game object, and changes
`zoom_power_` and `scale_` only, the latter to `scale(1/zoom, 1/zoom, 1)`. -/
lemma Camera.set_initial_zoom_frame (pow : K → K → K) (b : K) (stage : Stage K) (fuel : ℕ)
    (c s : Camera K) (h : set_initial_zoom pow b stage fuel c = .ok s) :
    (∃ g, c.game_object = some g) ∧
    ∃ p, s = { c with
      zoom_power_ := p
      scale_ := mat4.scale ![1 / pow b p, 1 / pow b p, 1, 1] } := by
  simp only [set_initial_zoom] at h
  cases hg : c.game_object with
  | none => rw [hg] at h; cases h
  | some g =>
    simp only [hg] at h
    cases hf : fit_search pow b (buf_dim stage) fuel c with
    | error e => rw [hf] at h; cases h
    | ok c3 =>
      rw [hf] at h
      obtain ⟨p, rfl⟩ := Camera.fit_search_frame pow b (buf_dim stage) fuel c c3 hf
      cases h
      exact ⟨⟨g, rfl⟩, p, by simp [compute_zoom, hg]⟩

/-- The pose invariant: the game object is bound and holds
`scale_ * translation(-camera_pos_x_, -camera_pos_y_, 0)`. -/
lemma Camera.update_object_pose_invariant (c : Camera K) (g : GameObject K)
    (hg : c.game_object = some g) :
    ∃ g1, (update_object_pose c).game_object = some g1 ∧
      g1.pose = (update_object_pose c).scale_ *
        mat4.translation ![-(update_object_pose c).camera_pos_x_,
          -(update_object_pose c).camera_pos_y_, 0, 1] := by
  rw [Camera.update_object_pose_bound c g hg]
  exact ⟨_, rfl, rfl⟩

/-- Every handler keeps the pose invariant. -/
lemma CameraEvent.apply_invariant (pow : K → K → K) (b : K) (e : CameraEvent K)
    (c s : Camera K) (h : CameraEvent.apply pow b e c = .ok s)
    (hinv : ∃ g, c.game_object = some g ∧
      g.pose = c.scale_ * mat4.translation ![-c.camera_pos_x_, -c.camera_pos_y_, 0, 1]) :
    ∃ g, s.game_object = some g ∧
      g.pose = s.scale_ * mat4.translation ![-s.camera_pos_x_, -s.camera_pos_y_, 0, 1] := by
  obtain ⟨g, hg, hpose⟩ := hinv
  cases e with
  | window_resized w h1 =>
    simp only [CameraEvent.apply, Except.ok.injEq] at h
    subst h
    exact ⟨g, hg, hpose⟩
  | scroll_callback cv delta =>
    simp only [CameraEvent.apply, Camera.scroll_callback, hg, Except.ok.injEq] at h
    subst h
    exact Camera.update_object_pose_invariant _ g rfl
  | mouse_drag_event mx my =>
    simp only [CameraEvent.apply, Camera.mouse_drag_event, Except.ok.injEq] at h
    subst h
    exact Camera.update_object_pose_invariant _ g hg
  | recenter_camera stage fuel =>
    simp only [CameraEvent.apply, Camera.recenter_camera] at h
    cases hs : set_initial_zoom pow b stage fuel
        { c with camera_pos_x_ := 0, camera_pos_y_ := 0 } with
    | error f => rw [hs] at h; cases h
    | ok c2 =>
      rw [hs] at h
      cases h
      obtain ⟨-, p, rfl⟩ := Camera.set_initial_zoom_frame pow b stage fuel _ c2 hs
      exact Camera.update_object_pose_invariant _ g hg
  | update =>
    simp only [CameraEvent.apply, Camera.update, Except.ok.injEq] at h
    subst h
    exact ⟨g, hg, hpose⟩
  | post_buffer_update =>
    simp only [CameraEvent.apply, Camera.post_buffer_update, Except.ok.injEq] at h
    subst h
    exact ⟨g, hg, hpose⟩

/-- A run of handlers keeps the pose invariant. -/
lemma CameraEvent.run_invariant (pow : K → K → K) (b : K) :
    ∀ (events : List (CameraEvent K)) (c s : Camera K),
      CameraEvent.run pow b events c = .ok s →
      (∃ g, c.game_object = some g ∧
        g.pose = c.scale_ * mat4.translation ![-c.camera_pos_x_, -c.camera_pos_y_, 0, 1]) →
      ∃ g, s.game_object = some g ∧
        g.pose = s.scale_ * mat4.translation ![-s.camera_pos_x_, -s.camera_pos_y_, 0, 1] := by
  intro events
  induction events with
  | nil =>
    intro c s h hinv
    simp only [CameraEvent.run, Except.ok.injEq] at h
    subst h
    exact hinv
  | cons e es ih =>
    intro c s h hinv
    simp only [CameraEvent.run] at h
    cases he : CameraEvent.apply pow b e c with
    | error f => rw [he] at h; cases h
    | ok c1 =>
      rw [he] at h
      exact ih c1 s h (CameraEvent.apply_invariant pow b e c c1 he hinv)

/-- A returning `post_initialize` establishes the pose invariant. -/
lemma Camera.invariant_after_start (pow : K → K → K) (b : K) (cv : GLCanvas K)
    (stage : Stage K) (fuel : ℕ) (c s : Camera K)
    (h : post_initialize pow b cv stage fuel c = .ok s) :
    ∃ g, s.game_object = some g ∧
      g.pose = s.scale_ * mat4.translation ![-s.camera_pos_x_, -s.camera_pos_y_, 0, 1] := by
  simp only [ post_initialize] at h
  cases hs : set_initial_zoom pow b stage fuel (window_resized cv.width cv.height c) with
  | error f => rw [hs] at h; cases h
  | ok c2 =>
    rw [hs] at h
    cases h
    obtain ⟨⟨g, hg⟩, p, rfl⟩ := Camera.set_initial_zoom_frame pow b stage fuel _ c2 hs
    exact Camera.update_object_pose_invariant _ g hg

end FrameFacts

/-! ## A worked run -/

lemma Camera.buf_dim_identity {K : Type} [LinearOrderedField K] (w h : K) :
    buf_dim (Stage.mk 1 w h) = ![w, h, 0, 1] := by
  simp [buf_dim]

/-- The state the example run starts from: `post_initialize` on a 400 by 300
canvas showing a 400 by 300 buffer. -/
lemma Camera.example_start :
    post_initialize Real.rpow (11 / 10) (GLCanvas.mk 0 0 400 300) (Stage.mk 1 400 300) 1
        (attached ℝ) =
      .ok { zoom_power_ := 0
            camera_pos_x_ := 0
            camera_pos_y_ := 0
            canvas_width_ := 400
            canvas_height_ := 300
            scale_ := 1
            projection := mat4.set_ortho_projection 200 150 (-1) 1
            game_object := some (GameObject.mk 1) } := by
  simp [ post_initialize, set_initial_zoom, fit_search, window_resized, attached,
    Camera.buf_dim_identity, vec4.x, vec4.y, compute_zoom, update_object_pose,
    mat4.scale_one, mat4.translation_zero]
  norm_num

lemma Camera.example_mouse_drag_event :
    Camera.mouse_drag_event 3 4
      ({ zoom_power_ := 0
         camera_pos_x_ := 0
         camera_pos_y_ := 0
         canvas_width_ := 400
         canvas_height_ := 300
         scale_ := 1
         projection := mat4.set_ortho_projection 200 150 (-1) 1
         game_object := some (GameObject.mk 1) } : Camera ℝ) =
      { zoom_power_ := 0
        camera_pos_x_ := 3
        camera_pos_y_ := 4
        canvas_width_ := 400
        canvas_height_ := 300
        scale_ := 1
        projection := mat4.set_ortho_projection 200 150 (-1) 1
        game_object := some (GameObject.mk (mat4.translation ![-3, -4, 0, 1])) } := by
  simp [Camera.mouse_drag_event, update_object_pose]

lemma Camera.example_pivot :
    (![97, 71, 0, 1] : vec4 ℝ) =
      Matrix.mulVec (mat4.translation ![-3, -4, 0, 1] *
        mat4.inv (mat4.set_ortho_projection 200 150 (-1) 1))
        (mouse_pos_ndc (GLCanvas.mk 300 75 400 300)) := by
  rw [mat4.inv_set_ortho_projection 200 150 (by norm_num) (by norm_num) (by norm_num)]
  ext i
  fin_cases i <;>
    norm_num [mat4.translation, Matrix.mul_apply, Matrix.mulVec, Matrix.dotProduct,
      Fin.sum_univ_four, mouse_pos_ndc, Matrix.vecHead, Matrix.vecTail, vec4.x, vec4.y,
      vec4.z]

lemma Camera.example_scale :
    (1 : mat4 ℝ) * (mat4.translation ![97, 71, 0, 1] *
      mat4.scale ![11 / 10, 11 / 10, 1, 1] * mat4.translation (-![97, 71, 0, 1])) =
      !![11 / 10, 0, 0, -(97 / 10); 0, 11 / 10, 0, -(71 / 10); 0, 0, 1, 0; 0, 0, 0, 1] := by
  rw [Matrix.one_mul]
  ext i j
  fin_cases i <;> fin_cases j <;>
    norm_num [mat4.translation, mat4.scale, Matrix.mul_apply, Fin.sum_univ_four,
      Matrix.vecHead, Matrix.vecTail, vec4.x, vec4.y, vec4.z]

lemma Camera.example_pose :
    (!![11 / 10, 0, 0, -(97 / 10); 0, 11 / 10, 0, -(71 / 10); 0, 0, 1, 0;
      0, 0, 0, 1] : mat4 ℝ) * mat4.translation ![-3, -4, 0, 1] =
      !![11 / 10, 0, 0, -13; 0, 11 / 10, 0, -(23 / 2); 0, 0, 1, 0; 0, 0, 0, 1] := by
  ext i j
  fin_cases i <;> fin_cases j <;>
    norm_num [mat4.translation, Matrix.mul_apply, Fin.sum_univ_four,
      Matrix.vecHead, Matrix.vecTail, vec4.x, vec4.y, vec4.z]

lemma Camera.example_scroll_callback :
    Camera.scroll_callback Real.rpow (11 / 10) (GLCanvas.mk 300 75 400 300) (-1)
      ({ zoom_power_ := 0
         camera_pos_x_ := 3
         camera_pos_y_ := 4
         canvas_width_ := 400
         canvas_height_ := 300
         scale_ := 1
         projection := mat4.set_ortho_projection 200 150 (-1) 1
         game_object := some (GameObject.mk (mat4.translation ![-3, -4, 0, 1])) } : Camera ℝ) =
      .ok { zoom_power_ := -1
            camera_pos_x_ := 3
            camera_pos_y_ := 4
            canvas_width_ := 400
            canvas_height_ := 300
            scale_ := !![11 / 10, 0, 0, -(97 / 10); 0, 11 / 10, 0, -(71 / 10);
                         0, 0, 1, 0; 0, 0, 0, 1]
            projection := mat4.set_ortho_projection 200 150 (-1) 1
            game_object := some (GameObject.mk
              !![11 / 10, 0, 0, -13; 0, 11 / 10, 0, -(23 / 2); 0, 0, 1, 0; 0, 0, 0, 1]) } := by
  have hz : Real.rpow (11 / 10) (-(-1)) = 11 / 10 := by
    rw [neg_neg, Real.rpow_eq_pow, Real.rpow_one]
  have hscroll := Camera.scroll_callback_bound Real.rpow (11 / 10) (GLCanvas.mk 300 75 400 300)
    (-1)
    ({ zoom_power_ := 0
       camera_pos_x_ := 3
       camera_pos_y_ := 4
       canvas_width_ := 400
       canvas_height_ := 300
       scale_ := 1
       projection := mat4.set_ortho_projection 200 150 (-1) 1
       game_object := some (GameObject.mk (mat4.translation ![-3, -4, 0, 1])) } : Camera ℝ)
    (GameObject.mk (mat4.translation ![-3, -4, 0, 1])) rfl (by simp) (by simp)
    ![97, 71, 0, 1] Camera.example_pivot
  dsimp only at hscroll
  rw [hz, Camera.example_scale, Camera.example_pose, zero_add] at hscroll
  exact hscroll

lemma Camera.example_run :
    CameraEvent.run Real.rpow (11 / 10)
        [.mouse_drag_event 3 4, .scroll_callback (GLCanvas.mk 300 75 400 300) (-1),
          .window_resized 640 480, .update, .post_buffer_update]
        { zoom_power_ := 0
          camera_pos_x_ := 0
          camera_pos_y_ := 0
          canvas_width_ := 400
          canvas_height_ := 300
          scale_ := 1
          projection := mat4.set_ortho_projection 200 150 (-1) 1
          game_object := some (GameObject.mk 1) } =
      .ok { zoom_power_ := -1
            camera_pos_x_ := 3
            camera_pos_y_ := 4
            canvas_width_ := 640
            canvas_height_ := 480
            scale_ := !![11 / 10, 0, 0, -(97 / 10); 0, 11 / 10, 0, -(71 / 10);
                         0, 0, 1, 0; 0, 0, 0, 1]
            projection := mat4.set_ortho_projection 320 240 (-1) 1
            game_object := some (GameObject.mk
              !![11 / 10, 0, 0, -13; 0, 11 / 10, 0, -(23 / 2); 0, 0, 1, 0; 0, 0, 0, 1]) } := by
  simp only [CameraEvent.run, CameraEvent.apply]
  rw [Camera.example_mouse_drag_event, Camera.example_scroll_callback]
  simp only [Camera.window_resized, Camera.update, Camera.post_buffer_update]
  norm_num

/-! ## The fit search reads the canvas size only -/

section CongrFacts

variable {K : Type} [LinearOrderedField K]

/-- The zoom-in loop reads the canvas size and `zoom_power_` only. -/
lemma Camera.zoom_in_loop_congr (pow : K → K → K) (b : K) (bd : vec4 K) :
    ∀ (fuel : ℕ) (c c' : Camera K) (z : K),
      c'.canvas_width_ = c.canvas_width_ → c'.canvas_height_ = c.canvas_height_ →
      c'.zoom_power_ = c.zoom_power_ →
      zoom_in_loop pow b bd fuel c' z =
        (zoom_in_loop pow b bd fuel c z).map
          (fun r => { c' with zoom_power_ := r.zoom_power_ }) := by
  intro fuel
  induction fuel with
  | zero => intro c c' z _ _ _; rfl
  | succ f ih =>
    intro c c' z hw hh hz
    obtain ⟨zp, px, py, cw, ch, sc, pr, go⟩ := c
    obtain ⟨zp', px', py', cw', ch', sc', pr', go'⟩ := c'
    simp only at hw hh hz
    subst hw hh hz
    simp only [zoom_in_loop]
    split_ifs with hc
    · exact ih _ _ _ rfl rfl rfl
    · rfl

/-- The zoom-out loop reads the canvas size and `zoom_power_` only. -/
lemma Camera.zoom_out_loop_congr (pow : K → K → K) (b : K) (bd : vec4 K) :
    ∀ (fuel : ℕ) (c c' : Camera K) (z : K),
      c'.canvas_width_ = c.canvas_width_ → c'.canvas_height_ = c.canvas_height_ →
      c'.zoom_power_ = c.zoom_power_ →
      zoom_out_loop pow b bd fuel c' z =
        (zoom_out_loop pow b bd fuel c z).map
          (fun r => { c' with zoom_power_ := r.zoom_power_ }) := by
  intro fuel
  induction fuel with
  | zero => intro c c' z _ _ _; rfl
  | succ f ih =>
    intro c c' z hw hh hz
    obtain ⟨zp, px, py, cw, ch, sc, pr, go⟩ := c
    obtain ⟨zp', px', py', cw', ch', sc', pr', go'⟩ := c'
    simp only at hw hh hz
    subst hw hh hz
    simp only [zoom_out_loop]
    split_ifs with hc
    · exact ih _ _ _ rfl rfl rfl
    · rfl

/-- The fit search reads the canvas size only. -/
lemma Camera.fit_search_congr (pow : K → K → K) (b : K) (bd : vec4 K) (fuel : ℕ)
    (c c' : Camera K) (hw : c'.canvas_width_ = c.canvas_width_)
    (hh : c'.canvas_height_ = c.canvas_height_) :
    fit_search pow b bd fuel c' =
      (fit_search pow b bd fuel c).map (fun r => { c' with zoom_power_ := r.zoom_power_ }) := by
  obtain ⟨zp, px, py, cw, ch, sc, pr, go⟩ := c
  obtain ⟨zp', px', py', cw', ch', sc', pr', go'⟩ := c'
  simp only at hw hh
  subst hw hh
  simp only [fit_search]
  split_ifs with h1 h2
  · rw [Camera.zoom_in_loop_congr pow b bd fuel
      { zoom_power_ := 0 + 1, camera_pos_x_ := px, camera_pos_y_ := py, canvas_width_ := cw',
        canvas_height_ := ch', scale_ := sc, projection := pr, game_object := go }
      { zoom_power_ := 0 + 1, camera_pos_x_ := px', camera_pos_y_ := py', canvas_width_ := cw',
        canvas_height_ := ch', scale_ := sc', projection := pr', game_object := go' }
      _ rfl rfl rfl]
    simp only [compute_zoom]
    cases zoom_in_loop pow b bd fuel _ (pow b (0 + 1)) <;> rfl
  · rw [Camera.zoom_out_loop_congr pow b bd fuel
      { zoom_power_ := 0 - 1, camera_pos_x_ := px, camera_pos_y_ := py, canvas_width_ := cw',
        canvas_height_ := ch', scale_ := sc, projection := pr, game_object := go }
      { zoom_power_ := 0 - 1, camera_pos_x_ := px', camera_pos_y_ := py', canvas_width_ := cw',
        canvas_height_ := ch', scale_ := sc', projection := pr', game_object := go' }
      _ rfl rfl rfl]
    simp only [compute_zoom]
    cases zoom_out_loop pow b bd fuel _ (pow b (0 - 1)) <;> rfl
  · rfl

/-- With the same canvas size and a game object bound on both sides,
`set_initial_zoom` returns the same `zoom_power_` and `scale_`. -/
lemma Camera.set_initial_zoom_congr (pow : K → K → K) (b : K) (stage : Stage K) (fuel : ℕ)
    (c c' : Camera K) (g g' : GameObject K) (hg : c.game_object = some g)
    (hg' : c'.game_object = some g') (hw : c'.canvas_width_ = c.canvas_width_)
    (hh : c'.canvas_height_ = c.canvas_height_) :
    set_initial_zoom pow b stage fuel c' =
      (set_initial_zoom pow b stage fuel c).map
        (fun r => { c' with zoom_power_ := r.zoom_power_, scale_ := r.scale_ }) := by
  simp only [set_initial_zoom, hg, hg']
  rw [Camera.fit_search_congr pow b (buf_dim stage) fuel c c' hw hh]
  cases fit_search pow b (buf_dim stage) fuel c <;> simp [Except.map, compute_zoom, hg']

end CongrFacts

/-! ## Facts about `recenter_camera` -/

section RecenterFacts

variable {K : Type} [LinearOrderedField K]

/-- What a returning `recenter_camera` returns. -/
lemma Camera.recenter_camera_frame (pow : K → K → K) (b : K) (stage : Stage K) (fuel : ℕ)
    (c s : Camera K) (h : recenter_camera pow b stage fuel c = .ok s) :
    ∃ (p : K) (g : GameObject K), c.game_object = some g ∧
      set_initial_zoom pow b stage fuel { c with camera_pos_x_ := 0, camera_pos_y_ := 0 } =
        .ok { c with
          camera_pos_x_ := 0
          camera_pos_y_ := 0
          zoom_power_ := p
          scale_ := mat4.scale ![1 / pow b p, 1 / pow b p, 1, 1] } ∧
      s = { c with
        camera_pos_x_ := 0
        camera_pos_y_ := 0
        zoom_power_ := p
        scale_ := mat4.scale ![1 / pow b p, 1 / pow b p, 1, 1]
        game_object := some (GameObject.mk
          (mat4.scale ![1 / pow b p, 1 / pow b p, 1, 1] * mat4.translation ![-0, -0, 0, 1])) } := by
  simp only [recenter_camera] at h
  cases hs : set_initial_zoom pow b stage fuel
      { c with camera_pos_x_ := 0, camera_pos_y_ := 0 } with
  | error f => rw [hs] at h; cases h
  | ok c2 =>
    rw [hs] at h
    obtain ⟨⟨g, hg⟩, p, rfl⟩ := Camera.set_initial_zoom_frame pow b stage fuel _ c2 hs
    cases h
    have hg' : c.game_object = some g := hg
    refine ⟨p, g, hg', rfl, ?_⟩
    simp only [update_object_pose, hg']

/-- More fuel does not change what `recenter_camera` returns. -/
lemma Camera.recenter_camera_mono (pow : K → K → K) (b : K) (stage : Stage K) (fuel : ℕ)
    (c s : Camera K) (h : recenter_camera pow b stage fuel c = .ok s) (k : ℕ) :
    recenter_camera pow b stage (fuel + k) c = .ok s := by
  simp only [recenter_camera] at h ⊢
  cases hs : set_initial_zoom pow b stage fuel
      { c with camera_pos_x_ := 0, camera_pos_y_ := 0 } with
  | error f => rw [hs] at h; cases h
  | ok c2 =>
    rw [hs] at h
    rw [Camera.set_initial_zoom_mono pow b stage fuel _ c2 hs k]
    exact h

/-- A second `recenter_camera` with the same readings returns the same state. -/
lemma Camera.recenter_camera_fixed (pow : K → K → K) (b : K) (stage : Stage K) (fuel : ℕ)
    (c s : Camera K) (h : recenter_camera pow b stage fuel c = .ok s) :
    recenter_camera pow b stage fuel s = .ok s := by
  obtain ⟨p, g, hg, hset, rfl⟩ := Camera.recenter_camera_frame pow b stage fuel c s h
  have key := Camera.set_initial_zoom_congr pow b stage fuel
    { c with camera_pos_x_ := 0, camera_pos_y_ := 0 }
    { c with
      camera_pos_x_ := 0
      camera_pos_y_ := 0
      zoom_power_ := p
      scale_ := mat4.scale ![1 / pow b p, 1 / pow b p, 1, 1]
      game_object := some (GameObject.mk
        (mat4.scale ![1 / pow b p, 1 / pow b p, 1, 1] * mat4.translation ![-0, -0, 0, 1])) }
    g _ hg rfl rfl rfl
  rw [hset] at key
  simp only [recenter_camera]
  dsimp only at key ⊢
  rw [key]
  simp only [Except.map, update_object_pose]

/-- The state `recenter_camera` returns does not depend on the previous
`zoom_power_`, `scale_` or pan offset. -/
lemma Camera.recenter_camera_forgets (pow : K → K → K) (b : K) (stage : Stage K) (fuel : ℕ)
    (c : Camera K) (z x y : K) (sc : mat4 K) :
    recenter_camera pow b stage fuel
        { c with zoom_power_ := z, scale_ := sc, camera_pos_x_ := x, camera_pos_y_ := y } =
      recenter_camera pow b stage fuel c := by
  rcases Option.eq_none_or_eq_some c.game_object with hg | ⟨g, hg⟩
  · simp only [recenter_camera, set_initial_zoom, hg]
  · have key := Camera.set_initial_zoom_congr pow b stage fuel
      { c with camera_pos_x_ := 0, camera_pos_y_ := 0 }
      { c with zoom_power_ := z, scale_ := sc, camera_pos_x_ := 0, camera_pos_y_ := 0 }
      g g hg hg rfl rfl
    simp only [recenter_camera]
    dsimp only at key ⊢
    rw [key]
    cases hs : set_initial_zoom pow b stage fuel
        { c with camera_pos_x_ := 0, camera_pos_y_ := 0 } with
    | error f => rfl
    | ok c2 =>
      obtain ⟨-, p, rfl⟩ := Camera.set_initial_zoom_frame pow b stage fuel _ c2 hs
      rfl

end RecenterFacts

/-! ## Properties of `scale_` kept along a run -/

section ScaleInvariantFacts

variable {K : Type} [LinearOrderedField K]

lemma mat4.translation_mul_scale (m : vec4 K) (z : K) :
    mat4.translation m * mat4.scale ![z, z, 1, 1] =
      !![z, 0, 0, m.x;
         0, z, 0, m.y;
         0, 0, 1, m.z;
         0, 0, 0, 1] := by
  ext i j
  fin_cases i <;> fin_cases j <;>
    simp [mat4.translation, mat4.scale, Matrix.mul_apply, Fin.sum_univ_four, vec4.x, vec4.y,
      vec4.z, Matrix.vecHead, Matrix.vecTail]

/-- The zoom step about the pivot `m` written out. -/
lemma mat4.pivot_eq (m : vec4 K) (z : K) :
    mat4.translation m * mat4.scale ![z, z, 1, 1] * mat4.translation (-m) =
      !![z, 0, 0, m.x - z * m.x;
         0, z, 0, m.y - z * m.y;
         0, 0, 1, 0;
         0, 0, 0, 1] := by
  rw [mat4.translation_mul_scale]
  ext i j
  fin_cases i <;> fin_cases j <;>
    simp [mat4.translation, Matrix.mul_apply, Fin.sum_univ_four, vec4.x, vec4.y,
      vec4.z, Matrix.vecHead, Matrix.vecTail] <;> ring

/-- A property of `(zoom_power_, scale_)` that `set_initial_zoom` establishes
and a zoom step keeps is kept by every handler. -/
lemma CameraEvent.apply_scale_invariant (pow : K → K → K) (b : K) (Q : K → mat4 K → Prop)
    (hfit : ∀ p : K, Q p (mat4.scale ![1 / pow b p, 1 / pow b p, 1, 1]))
    (hzoom : ∀ (z d : K) (sc : mat4 K) (m : vec4 K), Q z sc →
      Q (z + d) (sc * mat4.translation m * mat4.scale ![pow b (-d), pow b (-d), 1, 1] *
        mat4.translation (-m)))
    (e : CameraEvent K) (c s : Camera K) (h : CameraEvent.apply pow b e c = .ok s)
    (hq : Q c.zoom_power_ c.scale_) : Q s.zoom_power_ s.scale_ := by
  have hupd : ∀ c1 : Camera K, (update_object_pose c1).zoom_power_ = c1.zoom_power_ ∧
      (update_object_pose c1).scale_ = c1.scale_ := by
    intro c1
    cases hg : c1.game_object <;> simp [update_object_pose, hg]
  cases e with
  | window_resized w h1 =>
    simp only [CameraEvent.apply, Except.ok.injEq] at h
    subst h
    exact hq
  | scroll_callback cv delta =>
    rcases Option.eq_none_or_eq_some c.game_object with hg | ⟨g, hg⟩
    · simp only [CameraEvent.apply, Camera.scroll_callback, hg] at h
      cases h
    · simp only [CameraEvent.apply, Camera.scroll_callback, hg, Except.ok.injEq] at h
      subst h
      rw [(hupd _).1, (hupd _).2]
      exact hzoom _ _ _ _ hq
  | mouse_drag_event mx my =>
    simp only [CameraEvent.apply, Camera.mouse_drag_event, Except.ok.injEq] at h
    subst h
    rw [(hupd _).1, (hupd _).2]
    exact hq
  | recenter_camera stage fuel =>
    simp only [CameraEvent.apply, Camera.recenter_camera] at h
    cases hs : set_initial_zoom pow b stage fuel
        { c with camera_pos_x_ := 0, camera_pos_y_ := 0 } with
    | error f => rw [hs] at h; cases h
    | ok c2 =>
      rw [hs] at h
      cases h
      obtain ⟨-, p, rfl⟩ := Camera.set_initial_zoom_frame pow b stage fuel _ c2 hs
      rw [(hupd _).1, (hupd _).2]
      exact hfit p
  | update =>
    simp only [CameraEvent.apply, Camera.update, Except.ok.injEq] at h
    subst h
    exact hq
  | post_buffer_update =>
    simp only [CameraEvent.apply, Camera.post_buffer_update, Except.ok.injEq] at h
    subst h
    exact hq

/-- The same for a run of handlers started from a returning `set_initial_zoom`. -/
lemma CameraEvent.run_scale_invariant (pow : K → K → K) (b : K) (Q : K → mat4 K → Prop)
    (hfit : ∀ p : K, Q p (mat4.scale ![1 / pow b p, 1 / pow b p, 1, 1]))
    (hzoom : ∀ (z d : K) (sc : mat4 K) (m : vec4 K), Q z sc →
      Q (z + d) (sc * mat4.translation m * mat4.scale ![pow b (-d), pow b (-d), 1, 1] *
        mat4.translation (-m)))
    (stage : Stage K) (fuel : ℕ) (c s0 : Camera K)
    (hinit : set_initial_zoom pow b stage fuel c = .ok s0) :
    ∀ (events : List (CameraEvent K)) (s : Camera K),
      CameraEvent.run pow b events s0 = .ok s → Q s.zoom_power_ s.scale_ := by
  have h0 : Q s0.zoom_power_ s0.scale_ := by
    obtain ⟨-, p, rfl⟩ := Camera.set_initial_zoom_frame pow b stage fuel c s0 hinit
    exact hfit p
  clear hinit
  intro events
  induction events generalizing s0 with
  | nil =>
    intro s h
    simp only [CameraEvent.run, Except.ok.injEq] at h
    subst h
    exact h0
  | cons e es ih =>
    intro s h
    simp only [CameraEvent.run] at h
    cases he : CameraEvent.apply pow b e s0 with
    | error f => rw [he] at h; cases h
    | ok c1 =>
      rw [he] at h
      exact ih c1 (CameraEvent.apply_scale_invariant pow b Q hfit hzoom e s0 c1 he h0) s h

end ScaleInvariantFacts

/-! ## Projection and canvas size -/

/-- `update_object_pose` changes the game object only. -/
lemma Camera.update_object_pose_fields {K : Type} [LinearOrderedField K] (c : Camera K) :
    (update_object_pose c).zoom_power_ = c.zoom_power_ ∧
    (update_object_pose c).scale_ = c.scale_ ∧
    (update_object_pose c).camera_pos_x_ = c.camera_pos_x_ ∧
    (update_object_pose c).camera_pos_y_ = c.camera_pos_y_ ∧
    (update_object_pose c).canvas_width_ = c.canvas_width_ ∧
    (update_object_pose c).canvas_height_ = c.canvas_height_ ∧
    (update_object_pose c).projection = c.projection := by
  cases hg : c.game_object <;> simp [update_object_pose, hg]

section ProjectionFacts

variable {K : Type} [LinearOrderedField K]

/-- `set_initial_zoom` changes neither the projection nor the canvas size. -/
lemma Camera.set_initial_zoom_projection (pow : K → K → K) (b : K) (stage : Stage K)
    (fuel : ℕ) (c s : Camera K) (h : set_initial_zoom pow b stage fuel c = .ok s) :
    s.projection = c.projection ∧ s.canvas_width_ = c.canvas_width_ ∧
      s.canvas_height_ = c.canvas_height_ := by
  obtain ⟨-, p, rfl⟩ := Camera.set_initial_zoom_frame pow b stage fuel c s h
  exact ⟨rfl, rfl, rfl⟩

/-- Every handler other than `window_resized` changes neither the projection
nor the canvas size. -/
lemma CameraEvent.apply_projection (pow : K → K → K) (b : K) (e : CameraEvent K)
    (c s : Camera K) (h : CameraEvent.apply pow b e c = .ok s)
    (he : ∀ w h1, e ≠ .window_resized w h1) :
    s.projection = c.projection ∧ s.canvas_width_ = c.canvas_width_ ∧
      s.canvas_height_ = c.canvas_height_ := by
  cases e with
  | window_resized w h1 => exact absurd rfl (he w h1)
  | scroll_callback cv delta =>
    rcases Option.eq_none_or_eq_some c.game_object with hg | ⟨g, hg⟩
    · simp only [CameraEvent.apply, Camera.scroll_callback, hg] at h
      cases h
    · simp only [CameraEvent.apply, Camera.scroll_callback, hg, Except.ok.injEq] at h
      subst h
      exact ⟨(Camera.update_object_pose_fields _).2.2.2.2.2.2,
        (Camera.update_object_pose_fields _).2.2.2.2.1,
        (Camera.update_object_pose_fields _).2.2.2.2.2.1⟩
  | mouse_drag_event mx my =>
    simp only [CameraEvent.apply, Camera.mouse_drag_event, Except.ok.injEq] at h
    subst h
    exact ⟨(Camera.update_object_pose_fields _).2.2.2.2.2.2,
      (Camera.update_object_pose_fields _).2.2.2.2.1,
      (Camera.update_object_pose_fields _).2.2.2.2.2.1⟩
  | recenter_camera stage fuel =>
    simp only [CameraEvent.apply, Camera.recenter_camera] at h
    cases hs : set_initial_zoom pow b stage fuel
        { c with camera_pos_x_ := 0, camera_pos_y_ := 0 } with
    | error f => rw [hs] at h; cases h
    | ok c2 =>
      rw [hs] at h
      cases h
      obtain ⟨k1, k2, k3⟩ := Camera.set_initial_zoom_projection pow b stage fuel _ c2 hs
      obtain ⟨-, -, -, -, h5, h6, h7⟩ := Camera.update_object_pose_fields c2
      exact ⟨h7.trans k1, h5.trans k2, h6.trans k3⟩
  | update =>
    simp only [CameraEvent.apply, Camera.update, Except.ok.injEq] at h
    subst h
    exact ⟨rfl, rfl, rfl⟩
  | post_buffer_update =>
    simp only [CameraEvent.apply, Camera.post_buffer_update, Except.ok.injEq] at h
    subst h
    exact ⟨rfl, rfl, rfl⟩

end ProjectionFacts

/-! ## The closed form of the fit search -/

section ClosedFormFacts

/-- A value bracketed by consecutive integer powers has that floor of its
logarithm. -/
lemma Camera.floor_logb_eq (b : ℝ) (hb : 1 < b) (r : ℝ) (hr : 0 < r) (p : ℤ)
    (h1 : b ^ p ≤ r) (h2 : r < b ^ (p + 1)) : ⌊Real.logb b r⌋ = p := by
  rw [Int.floor_eq_iff]
  constructor
  · rw [Real.le_logb_iff_rpow_le hb hr, Real.rpow_intCast]
    exact h1
  · rw [Real.logb_lt_iff_lt_rpow hb hr]
    have e : ((p : ℝ) + 1) = ((p + 1 : ℤ) : ℝ) := by push_cast; rfl
    rw [e, Real.rpow_intCast]
    exact h2

/-- A value strictly above an integer power and at most the next one has that
ceiling of its logarithm. -/
lemma Camera.ceil_logb_eq (b : ℝ) (hb : 1 < b) (r : ℝ) (hr : 0 < r) (p : ℤ)
    (h1 : b ^ p < r) (h2 : r ≤ b ^ (p + 1)) : ⌈Real.logb b r⌉ = p + 1 := by
  rw [Int.ceil_eq_iff]
  constructor
  · have e : (((p + 1 : ℤ) : ℝ) - 1) = (p : ℝ) := by push_cast; ring
    rw [e, Real.lt_logb_iff_rpow_lt hb hr, Real.rpow_intCast]
    exact h1
  · rw [Real.logb_le_iff_le_rpow hb hr, Real.rpow_intCast]
    exact h2

/-- Fitting in both axes at scale `t` is `t ≤ min (w / x) (h / y)`. -/
lemma Camera.fit_iff_le_min (w h x y t : ℝ) (hx : 0 < x) (hy : 0 < y) :
    (t * x ≤ w ∧ t * y ≤ h) ↔ t ≤ min (w / x) (h / y) := by
  rw [le_min_iff, le_div_iff₀ hx, le_div_iff₀ hy]

/-- The strict fit in both axes at scale `t` is `t < min (w / x) (h / y)`. -/
lemma Camera.strict_fit_iff_lt_min (w h x y t : ℝ) (hx : 0 < x) (hy : 0 < y) :
    (w > t * x ∧ h > t * y) ↔ t < min (w / x) (h / y) := by
  rw [lt_min_iff, lt_div_iff₀ hx, lt_div_iff₀ hy]

end ClosedFormFacts

/-! ## Further worked examples -/

/-- The worked run can also be started from `set_initial_zoom` alone: on a 400 by
300 canvas showing a 400 by 300 buffer it leaves the power at zero. -/
lemma Camera.example_fit :
    set_initial_zoom Real.rpow (11 / 10) (Stage.mk 1 400 300) 1
        (window_resized 400 300 (attached ℝ)) =
      .ok { zoom_power_ := 0
            camera_pos_x_ := 0
            camera_pos_y_ := 0
            canvas_width_ := 400
            canvas_height_ := 300
            scale_ := 1
            projection := mat4.set_ortho_projection 200 150 (-1) 1
            game_object := some (GameObject.mk 1) } := by
  simp [set_initial_zoom, fit_search, window_resized, attached,
    Camera.buf_dim_identity, vec4.x, vec4.y, compute_zoom, mat4.scale_one]
  norm_num

/-- A fit that changes the scale: base 2, a 3 by 3 canvas, 1 by 1 content.  The
grow branch passes power 1 (`3 > 2`), fails at power 2 (`3 > 4`) and steps back
to 1; the game object is not touched. -/
lemma Camera.example_fit_grow :
    set_initial_zoom Real.rpow 2 (Stage.mk 1 1 1) 2 (window_resized 3 3 (attached ℝ)) =
      .ok { window_resized 3 3 (attached ℝ) with
        zoom_power_ := 1
        scale_ := mat4.scale ![1 / 2, 1 / 2, 1, 1] } := by
  norm_num [set_initial_zoom, fit_search, zoom_in_loop, window_resized, attached,
    Camera.buf_dim_identity, vec4.x, vec4.y, compute_zoom]

/-- At the boundary the search is one below the closed form: base 2, a 2 by 2
canvas, 1 by 1 content.  The grow branch tests `2 > 2^1 * 1`, which fails, and
steps back to power 0, while `floor(log_2 (min (2/1) (2/1))) = 1`. -/
lemma Camera.example_boundary :
    set_initial_zoom Real.rpow 2 (Stage.mk 1 1 1) 1 (window_resized 2 2 (attached ℝ)) =
      .ok { window_resized 2 2 (attached ℝ) with zoom_power_ := 0, scale_ := 1 } := by
  simp [set_initial_zoom, fit_search, zoom_in_loop, window_resized, attached,
    Camera.buf_dim_identity, vec4.x, vec4.y, compute_zoom, mat4.scale_one]

/-- The pivot of a scroll at the canvas centre, pixel (200, 150), on the dragged
state of the worked run. -/
lemma Camera.example_centre_pivot :
    (![-3, -4, 0, 1] : vec4 ℝ) =
      Matrix.mulVec (mat4.translation ![-3, -4, 0, 1] *
        mat4.inv (mat4.set_ortho_projection 200 150 (-1) 1))
        (mouse_pos_ndc (GLCanvas.mk 200 150 400 300)) := by
  rw [mat4.inv_set_ortho_projection 200 150 (by norm_num) (by norm_num) (by norm_num)]
  ext i
  fin_cases i <;>
    norm_num [mat4.translation, Matrix.mul_apply, Matrix.mulVec, Matrix.dotProduct,
      Fin.sum_univ_four, mouse_pos_ndc, Matrix.vecHead, Matrix.vecTail, vec4.x, vec4.y,
      vec4.z]

lemma Camera.example_centre_scale :
    (1 : mat4 ℝ) * (mat4.translation ![-3, -4, 0, 1] *
      mat4.scale ![11 / 10, 11 / 10, 1, 1] * mat4.translation (-![-3, -4, 0, 1])) =
      !![11 / 10, 0, 0, 3 / 10; 0, 11 / 10, 0, 4 / 10; 0, 0, 1, 0; 0, 0, 0, 1] := by
  rw [Matrix.one_mul]
  ext i j
  fin_cases i <;> fin_cases j <;>
    norm_num [mat4.translation, mat4.scale, Matrix.mul_apply, Fin.sum_univ_four,
      Matrix.vecHead, Matrix.vecTail, vec4.x, vec4.y, vec4.z]

lemma Camera.example_centre_pose :
    (!![11 / 10, 0, 0, 3 / 10; 0, 11 / 10, 0, 4 / 10; 0, 0, 1, 0;
      0, 0, 0, 1] : mat4 ℝ) * mat4.translation ![-3, -4, 0, 1] =
      !![11 / 10, 0, 0, -3; 0, 11 / 10, 0, -4; 0, 0, 1, 0; 0, 0, 0, 1] := by
  ext i j
  fin_cases i <;> fin_cases j <;>
    norm_num [mat4.translation, Matrix.mul_apply, Fin.sum_univ_four,
      Matrix.vecHead, Matrix.vecTail, vec4.x, vec4.y, vec4.z]

/-- The same scroll as in the worked run, delta -1, but with the pointer at the
canvas centre. -/
lemma Camera.example_centre_scroll_callback :
    Camera.scroll_callback Real.rpow (11 / 10) (GLCanvas.mk 200 150 400 300) (-1)
      ({ zoom_power_ := 0
         camera_pos_x_ := 3
         camera_pos_y_ := 4
         canvas_width_ := 400
         canvas_height_ := 300
         scale_ := 1
         projection := mat4.set_ortho_projection 200 150 (-1) 1
         game_object := some (GameObject.mk (mat4.translation ![-3, -4, 0, 1])) } : Camera ℝ) =
      .ok { zoom_power_ := -1
            camera_pos_x_ := 3
            camera_pos_y_ := 4
            canvas_width_ := 400
            canvas_height_ := 300
            scale_ := !![11 / 10, 0, 0, 3 / 10; 0, 11 / 10, 0, 4 / 10;
                         0, 0, 1, 0; 0, 0, 0, 1]
            projection := mat4.set_ortho_projection 200 150 (-1) 1
            game_object := some (GameObject.mk
              !![11 / 10, 0, 0, -3; 0, 11 / 10, 0, -4; 0, 0, 1, 0; 0, 0, 0, 1]) } := by
  have hz : Real.rpow (11 / 10) (-(-1)) = 11 / 10 := by
    rw [neg_neg, Real.rpow_eq_pow, Real.rpow_one]
  have hscroll := Camera.scroll_callback_bound Real.rpow (11 / 10) (GLCanvas.mk 200 150 400 300)
    (-1)
    ({ zoom_power_ := 0
       camera_pos_x_ := 3
       camera_pos_y_ := 4
       canvas_width_ := 400
       canvas_height_ := 300
       scale_ := 1
       projection := mat4.set_ortho_projection 200 150 (-1) 1
       game_object := some (GameObject.mk (mat4.translation ![-3, -4, 0, 1])) } : Camera ℝ)
    (GameObject.mk (mat4.translation ![-3, -4, 0, 1])) rfl (by simp) (by simp)
    ![-3, -4, 0, 1] Camera.example_centre_pivot
  dsimp only at hscroll
  rw [hz, Camera.example_centre_scale, Camera.example_centre_pose, zero_add] at hscroll
  exact hscroll

lemma Camera.example_scale_ne :
    (!![11 / 10, 0, 0, -(97 / 10); 0, 11 / 10, 0, -(71 / 10); 0, 0, 1, 0; 0, 0, 0, 1] :
      mat4 ℝ) ≠ !![11 / 10, 0, 0, 3 / 10; 0, 11 / 10, 0, 4 / 10; 0, 0, 1, 0; 0, 0, 0, 1] := by
  intro h
  have h03 := congrFun (congrFun h 0) 3
  norm_num [Matrix.vecHead, Matrix.vecTail] at h03

lemma Camera.example_pose_ne :
    (!![11 / 10, 0, 0, -13; 0, 11 / 10, 0, -(23 / 2); 0, 0, 1, 0; 0, 0, 0, 1] : mat4 ℝ) ≠
      !![11 / 10, 0, 0, -3; 0, 11 / 10, 0, -4; 0, 0, 1, 0; 0, 0, 0, 1] := by
  intro h
  have h03 := congrFun (congrFun h 0) 3
  norm_num [Matrix.vecHead, Matrix.vecTail] at h03

/-! ## Facts about single-precision rounding -/

section RoundingFacts

end RoundingFacts

/-! ## Values of the single-precision operations -/

section SingleValues

end SingleValues

/-! ## Steps of the single-precision operations -/

section SingleSteps

end SingleSteps

/-! ## The claims -/

/-- C1 (amended): pivot invariance of `scroll_callback`.  For every real delta,
every pointer reading, every invertible `scale_`, every pan offset and every
invertible projection whose bottom row is `(0, 0, 0, 1)` (as that of every
orthographic projection is), if the game object holds
`scale_ * translation(-pan)` before the call, then the call returns and the pose
it pushes sends `inverse(projection) * ndc` to the same point as the pose before
the call. -/
theorem scroll_callback_pivot_invariant (b : ℝ) (gl_canvas : GLCanvas ℝ) (delta : ℝ)
    (c : Camera ℝ) (g : GameObject ℝ) (hg : c.game_object = some g)
    (hpose : g.pose = c.scale_ * mat4.translation ![-c.camera_pos_x_, -c.camera_pos_y_, 0, 1])
    (hS : Matrix.det c.scale_ ≠ 0) (hP : Matrix.det c.projection ≠ 0)
    (hrow : c.projection 3 = ![0, 0, 0, 1]) :
    ∃ c1 g1, scroll_callback Real.rpow b gl_canvas delta c = .ok c1 ∧
      c1.game_object = some g1 ∧
      Matrix.mulVec (g1.pose * mat4.inv c.projection) (mouse_pos_ndc gl_canvas) =
        Matrix.mulVec (g.pose * mat4.inv c.projection) (mouse_pos_ndc gl_canvas) := by
  obtain ⟨c1, g1, h1, h2, h3, h4⟩ := Camera.scroll_callback_pose_mulVec Real.rpow b gl_canvas
    delta c g hg hpose hS _ rfl
  refine ⟨c1, g1, h1, h2, ?_⟩
  rw [h3, h4]
  set T := mat4.translation ![-c.camera_pos_x_, -c.camera_pos_y_, 0, 1] with hT
  set m := Matrix.mulVec (T * mat4.inv c.projection) (mouse_pos_ndc gl_canvas) with hm
  have hw : m 3 = 1 := by
    have h3 : (T * mat4.inv c.projection) 3 = ![0, 0, 0, 1] := by
      rw [Matrix.mul_apply_eq_vecMul, hT, mat4.translation_bottom_row, vec4.bottom_eq_single,
        Matrix.single_one_vecMul, mat4.inv_bottom_row _ hP hrow, vec4.bottom_eq_single]
    rw [hm]
    show Matrix.dotProduct ((T * mat4.inv c.projection) 3) (mouse_pos_ndc gl_canvas) = 1
    rw [h3, vec4.bottom_eq_single, Matrix.single_dotProduct]
    simp [mouse_pos_ndc]
  have hv : ∀ z : ℝ,
      (![(z * (1 - 1) + 1) * m 0, (z * (1 - 1) + 1) * m 1, m 2, 1] : Fin 4 → ℝ) = m := by
    intro z
    ext i
    fin_cases i <;> simp [hw]
  rw [hw, hv]

/-- C1 (amended) at a concrete input: an 800 by 600 orthographic projection,
base 11/10, delta 1, pointer at pixel (600, 150). -/
theorem scroll_callback_pivot_invariant_witness :
    (window_resized 800 600 (attached ℝ)).game_object = some (GameObject.mk 1) ∧
    Matrix.det (window_resized 800 600 (attached ℝ)).scale_ ≠ 0 ∧
    Matrix.det (window_resized 800 600 (attached ℝ)).projection ≠ 0 ∧
    (window_resized 800 600 (attached ℝ)).projection 3 = ![0, 0, 0, 1] ∧
    ∃ c1 g1, scroll_callback Real.rpow (11 / 10) (GLCanvas.mk 600 150 800 600) 1
        (window_resized 800 600 (attached ℝ)) = .ok c1 ∧
      c1.game_object = some g1 ∧
      Matrix.mulVec (g1.pose * mat4.inv (window_resized 800 600 (attached ℝ)).projection)
          (mouse_pos_ndc (GLCanvas.mk 600 150 800 600)) =
        Matrix.mulVec ((GameObject.mk 1 : GameObject ℝ).pose *
          mat4.inv (window_resized 800 600 (attached ℝ)).projection)
          (mouse_pos_ndc (GLCanvas.mk 600 150 800 600)) := by
  have hS : Matrix.det (window_resized 800 600 (attached ℝ)).scale_ ≠ 0 := by
    simp [window_resized, attached]
  have hP : Matrix.det (window_resized 800 600 (attached ℝ)).projection ≠ 0 := by
    simp [window_resized, attached, mat4.set_ortho_projection, Matrix.det_succ_row_zero,
      Fin.sum_univ_succ, Matrix.submatrix, Matrix.vecHead, Matrix.vecTail, Fin.succAbove]
  have hrow : (window_resized 800 600 (attached ℝ)).projection 3 = ![0, 0, 0, 1] := by
    ext j
    fin_cases j <;>
      simp [window_resized, attached, mat4.set_ortho_projection, Matrix.vecHead, Matrix.vecTail]
  exact ⟨rfl, hS, hP, hrow,
    scroll_callback_pivot_invariant (11 / 10) (GLCanvas.mk 600 150 800 600) 1
      (window_resized 800 600 (attached ℝ)) (GameObject.mk 1) rfl
      (by simp [window_resized, attached, mat4.translation_zero]) hS hP hrow⟩

/-- C1 as stated fails for an invertible projection that is not affine: with
projection `diag(1, 1, 1, 1/2)`, identity `scale_`, no pan, base 2, delta 1 and
the pointer at NDC `(1, 0)`, the unprojected pointer `(1, 0, 0, 2)` is sent to
`(3/2, 0, 0, 2)` by the pose pushed by `scroll_callback`. -/
theorem scroll_callback_pivot_moves_projective :
    (projective_example ℝ).game_object = some (GameObject.mk 1) ∧
    (GameObject.mk 1 : GameObject ℝ).pose = (projective_example ℝ).scale_ *
      mat4.translation ![-(projective_example ℝ).camera_pos_x_, -(projective_example ℝ).camera_pos_y_, 0, 1] ∧
    Matrix.det (projective_example ℝ).scale_ ≠ 0 ∧ Matrix.det (projective_example ℝ).projection ≠ 0 ∧
    ∃ c1 g1, scroll_callback Real.rpow 2 (GLCanvas.mk 2 1 2 2) 1 (projective_example ℝ) = .ok c1 ∧
      c1.game_object = some g1 ∧
      Matrix.mulVec (g1.pose * mat4.inv (projective_example ℝ).projection)
        (mouse_pos_ndc (GLCanvas.mk 2 1 2 2)) = ![3 / 2, 0, 0, 2] ∧
      Matrix.mulVec ((GameObject.mk 1 : GameObject ℝ).pose * mat4.inv (projective_example ℝ).projection)
        (mouse_pos_ndc (GLCanvas.mk 2 1 2 2)) = ![1, 0, 0, 2] := by
  have hpose : (GameObject.mk 1 : GameObject ℝ).pose = (projective_example ℝ).scale_ *
      mat4.translation ![-(projective_example ℝ).camera_pos_x_, -(projective_example ℝ).camera_pos_y_, 0, 1] := by
    simp [projective_example, attached, mat4.translation_zero]
  have hS : Matrix.det (projective_example ℝ).scale_ ≠ 0 := by simp [projective_example, attached]
  have hinv : mat4.inv (projective_example ℝ).projection =
      !![1, 0, 0, 0; 0, 1, 0, 0; 0, 0, 1, 0; 0, 0, 0, 2] := by
    rw [mat4.inv_eq_nonsing_inv]
    apply Matrix.inv_eq_right_inv
    ext i j
    fin_cases i <;> fin_cases j <;>
      simp [projective_example, attached, Matrix.mul_apply, Fin.sum_univ_four, Matrix.vecHead, Matrix.vecTail]
  have hP : Matrix.det (projective_example ℝ).projection ≠ 0 := by
    simp [projective_example, attached, Matrix.det_succ_row_zero, Fin.sum_univ_succ, Matrix.submatrix,
      Matrix.vecHead, Matrix.vecTail, Fin.succAbove]
  have hm : (![1, 0, 0, 2] : vec4 ℝ) =
      Matrix.mulVec (mat4.translation ![-(projective_example ℝ).camera_pos_x_,
        -(projective_example ℝ).camera_pos_y_, 0, 1] * mat4.inv (projective_example ℝ).projection)
        (mouse_pos_ndc (GLCanvas.mk 2 1 2 2)) := by
    rw [hinv]
    ext i
    fin_cases i <;>
      norm_num [projective_example, attached, mat4.translation_zero, Matrix.mulVec, Matrix.dotProduct,
        Fin.sum_univ_four, mouse_pos_ndc, Matrix.vecHead, Matrix.vecTail]
  obtain ⟨c1, g1, h1, h2, h3, h4⟩ := Camera.scroll_callback_pose_mulVec Real.rpow 2
    (GLCanvas.mk 2 1 2 2) 1 (projective_example ℝ) _ rfl hpose hS _ hm
  refine ⟨rfl, hpose, hS, hP, c1, g1, h1, h2, ?_, ?_⟩
  · rw [h3]
    have hz : Real.rpow 2 (-1) = 1 / 2 := by
      rw [Real.rpow_eq_pow, Real.rpow_neg_one]; norm_num
    have hone : (projective_example ℝ).scale_ = 1 := rfl
    rw [hz, hone, Matrix.one_mulVec]
    ext i
    fin_cases i <;> norm_num
  · rw [h4]
    have hone : (projective_example ℝ).scale_ = 1 := rfl
    rw [hone, Matrix.one_mulVec]

/-- C5: auto-fit terminates.  For a base above one, a positive canvas size and a
positive effective content size, the increment loop (as entered at power one)
and the decrement loop (as entered at power minus one) both return once the
fuel exceeds some bound, and so does `set_initial_zoom`. -/
theorem set_initial_zoom_terminates (b : ℝ) (hb : 1 < b) (c : Camera ℝ) (g : GameObject ℝ)
    (hg : c.game_object = some g) (stage : Stage ℝ)
    (hx : 0 < (buf_dim stage).x)
    (hW : 0 < c.canvas_width_) (hH : 0 < c.canvas_height_) :
    (∃ n, ∀ fuel, n < fuel → ∃ r,
      zoom_in_loop Real.rpow b (buf_dim stage) fuel { c with zoom_power_ := 0 + 1 }
        (compute_zoom Real.rpow b { c with zoom_power_ := 0 + 1 }) = some r) ∧
    (∃ n, ∀ fuel, n < fuel → ∃ r,
      zoom_out_loop Real.rpow b (buf_dim stage) fuel { c with zoom_power_ := 0 - 1 }
        (compute_zoom Real.rpow b { c with zoom_power_ := 0 - 1 }) = some r) ∧
    ∃ n, ∀ fuel, n < fuel → ∃ s, set_initial_zoom Real.rpow b stage fuel c = .ok s := by
  refine ⟨?_, ?_, ?_⟩
  · obtain ⟨d, hloop, -, -⟩ := Camera.zoom_in_loop_stops b hb c (buf_dim stage) hx
    exact ⟨d, fun fuel hfuel => ⟨_, hloop fuel hfuel⟩⟩
  · obtain ⟨d, hloop, -, -⟩ := Camera.zoom_out_loop_stops b hb c (buf_dim stage)
      (Int.cast_pos.mpr hW) (Int.cast_pos.mpr hH)
    exact ⟨d, fun fuel hfuel => ⟨_, hloop fuel hfuel⟩⟩
  · obtain ⟨p, hrun, -, -, -⟩ := Camera.set_initial_zoom_spec b hb c g hg stage hx
      (Int.cast_pos.mpr hW) (Int.cast_pos.mpr hH)
    exact ⟨p.natAbs, fun fuel hfuel => ⟨_, hrun fuel hfuel⟩⟩

/-- C5 on a 200 by 150 canvas showing a 400 by 300 buffer, base 11/10. -/
theorem set_initial_zoom_terminates_witness :
    (1 : ℝ) < 11 / 10 ∧
    (window_resized 200 150 (attached ℝ)).game_object = some (GameObject.mk 1) ∧
    0 < (buf_dim (Stage.mk (1 : mat4 ℝ) 400 300)).x ∧
    0 < (window_resized 200 150 (attached ℝ)).canvas_width_ ∧
    0 < (window_resized 200 150 (attached ℝ)).canvas_height_ ∧
    ((∃ n, ∀ fuel, n < fuel → ∃ r,
      zoom_in_loop Real.rpow (11 / 10) (buf_dim (Stage.mk 1 400 300)) fuel
        { window_resized 200 150 (attached ℝ) with zoom_power_ := 0 + 1 }
        (compute_zoom Real.rpow (11 / 10)
          { window_resized 200 150 (attached ℝ) with zoom_power_ := 0 + 1 }) = some r) ∧
    (∃ n, ∀ fuel, n < fuel → ∃ r,
      zoom_out_loop Real.rpow (11 / 10) (buf_dim (Stage.mk 1 400 300)) fuel
        { window_resized 200 150 (attached ℝ) with zoom_power_ := 0 - 1 }
        (compute_zoom Real.rpow (11 / 10)
          { window_resized 200 150 (attached ℝ) with zoom_power_ := 0 - 1 }) = some r) ∧
    ∃ n, ∀ fuel, n < fuel → ∃ s, set_initial_zoom Real.rpow (11 / 10) (Stage.mk 1 400 300) fuel
      (window_resized 200 150 (attached ℝ)) = .ok s) :=
  ⟨by norm_num, rfl, by simp [Camera.buf_dim_identity, vec4.x], by simp [window_resized],
    by simp [window_resized],
    set_initial_zoom_terminates (11 / 10) (by norm_num) _ (GameObject.mk 1) rfl _
      (by simp [Camera.buf_dim_identity, vec4.x]) (by simp [window_resized])
      (by simp [window_resized])⟩

/-- C6: pose propagation invariant.  In every state reached from a returning
`post_initialize` by a finite sequence of `window_resized`, `scroll_callback`,
`mouse_drag_event`, `recenter_camera`, `update` and `post_buffer_update`, the
game object is bound and its pose equals
`scale_ * translation(-camera_pos_x_, -camera_pos_y_, 0)`. -/
theorem pose_propagation_invariant {K : Type} [LinearOrderedField K] (pow : K → K → K)
    (zoom_factor : K) (gl_canvas : GLCanvas K) (stage : Stage K) (fuel : ℕ)
    (c0 c1 s : Camera K) (events : List (CameraEvent K))
    (hinit : post_initialize pow zoom_factor gl_canvas stage fuel c0 = .ok c1)
    (hrun : CameraEvent.run pow zoom_factor events c1 = .ok s) :
    ∃ g, s.game_object = some g ∧
      g.pose = s.scale_ * mat4.translation ![-s.camera_pos_x_, -s.camera_pos_y_, 0, 1] :=
  CameraEvent.run_invariant pow zoom_factor events c1 s hrun
    (Camera.invariant_after_start pow zoom_factor gl_canvas stage fuel c0 c1 hinit)

/-- C6 on the worked run: `post_initialize`, a drag by (3, 4), a scroll by -1 at
pixel (300, 75), a resize to 640 by 480, `update` and `post_buffer_update`. -/
theorem pose_propagation_invariant_witness :
    post_initialize Real.rpow (11 / 10) (GLCanvas.mk 0 0 400 300) (Stage.mk 1 400 300) 1
        (attached ℝ) =
      .ok { zoom_power_ := 0
            camera_pos_x_ := 0
            camera_pos_y_ := 0
            canvas_width_ := 400
            canvas_height_ := 300
            scale_ := 1
            projection := mat4.set_ortho_projection 200 150 (-1) 1
            game_object := some (GameObject.mk 1) } ∧
    CameraEvent.run Real.rpow (11 / 10)
        [.mouse_drag_event 3 4, .scroll_callback (GLCanvas.mk 300 75 400 300) (-1),
          .window_resized 640 480, .update, .post_buffer_update]
        { zoom_power_ := 0
          camera_pos_x_ := 0
          camera_pos_y_ := 0
          canvas_width_ := 400
          canvas_height_ := 300
          scale_ := 1
          projection := mat4.set_ortho_projection 200 150 (-1) 1
          game_object := some (GameObject.mk 1) } =
      .ok { zoom_power_ := -1
            camera_pos_x_ := 3
            camera_pos_y_ := 4
            canvas_width_ := 640
            canvas_height_ := 480
            scale_ := !![11 / 10, 0, 0, -(97 / 10); 0, 11 / 10, 0, -(71 / 10);
                         0, 0, 1, 0; 0, 0, 0, 1]
            projection := mat4.set_ortho_projection 320 240 (-1) 1
            game_object := some (GameObject.mk
              !![11 / 10, 0, 0, -13; 0, 11 / 10, 0, -(23 / 2); 0, 0, 1, 0; 0, 0, 0, 1]) } ∧
    ∃ g, (some (GameObject.mk
        !![11 / 10, 0, 0, -13; 0, 11 / 10, 0, -(23 / 2); 0, 0, 1, 0; 0, 0, 0, 1]) :
          Option (GameObject ℝ)) = some g ∧
      g.pose = (!![11 / 10, 0, 0, -(97 / 10); 0, 11 / 10, 0, -(71 / 10);
                         0, 0, 1, 0; 0, 0, 0, 1] : mat4 ℝ) *
        mat4.translation ![-3, -4, 0, 1] :=
  ⟨Camera.example_start, Camera.example_run,
    pose_propagation_invariant Real.rpow (11 / 10) (GLCanvas.mk 0 0 400 300)
      (Stage.mk 1 400 300) 1 (attached ℝ) _ _ _ Camera.example_start
      Camera.example_run⟩

/-- C7 (the code faults): `scroll_callback` dereferences `game_object` without
the null check that `update_object_pose` has, so on every camera whose
`game_object` is null it ends in a null dereference, whereas it returns when the
same camera is bound; `window_resized`, `mouse_drag_event` and `update` do
complete on a null `game_object` and change the other fields exactly as on a
bound one. -/
theorem scroll_callback_null_game_object {K : Type} [LinearOrderedField K] (pow : K → K → K)
    (zoom_factor : K) (gl_canvas : GLCanvas K) (delta : K) (w h mouse_x mouse_y : ℤ)
    (c : Camera K) (g : GameObject K) :
    scroll_callback pow zoom_factor gl_canvas delta { c with game_object := none } =
      .error .null_dereference ∧
    (∃ s, scroll_callback pow zoom_factor gl_canvas delta { c with game_object := some g } =
      .ok s) ∧
    window_resized w h { c with game_object := none } =
      { window_resized w h { c with game_object := some g } with game_object := none } ∧
    mouse_drag_event mouse_x mouse_y { c with game_object := none } =
      { mouse_drag_event mouse_x mouse_y { c with game_object := some g } with
        game_object := none } ∧
    update { c with game_object := none } =
      { update { c with game_object := some g } with game_object := none } := by
  refine ⟨rfl, ⟨_, rfl⟩, rfl, rfl, rfl⟩

/-- C10: zoom steps compose additively when the pointer does not move.  For a
positive base, every state with a bound game object holding
`scale_ * translation(-pan)` and an invertible `scale_`, every projection
(invertible or not), every fixed pointer reading and all real `d1`, `d2`:
`scroll_callback d1` then `scroll_callback d2`, the single call
`scroll_callback (d1 + d2)`, and `scroll_callback d2` then `scroll_callback d1`
all return the same camera state (every field, the pushed pose included). -/
theorem scroll_callback_composes (b : ℝ) (hb : 0 < b) (gl_canvas : GLCanvas ℝ) (d1 d2 : ℝ)
    (c : Camera ℝ) (g : GameObject ℝ) (hg : c.game_object = some g)
    (hpose : g.pose = c.scale_ * mat4.translation ![-c.camera_pos_x_, -c.camera_pos_y_, 0, 1])
    (hS : Matrix.det c.scale_ ≠ 0) :
    ∃ s, scroll_callback Real.rpow b gl_canvas (d1 + d2) c = .ok s ∧
      (scroll_callback Real.rpow b gl_canvas d1 c).bind
        (scroll_callback Real.rpow b gl_canvas d2) = .ok s ∧
      (scroll_callback Real.rpow b gl_canvas d2 c).bind
        (scroll_callback Real.rpow b gl_canvas d1) = .ok s := by
  have hne : ∀ d : ℝ, Real.rpow b (-d) ≠ 0 := fun d => (Real.rpow_pos_of_pos hb _).ne'
  have hadd : Real.rpow b (-d1) * Real.rpow b (-d2) = Real.rpow b (-(d1 + d2)) := by
    simp only [Real.rpow_eq_pow]
    rw [← Real.rpow_add hb, neg_add]
  have hadd' : Real.rpow b (-d2) * Real.rpow b (-d1) = Real.rpow b (-(d1 + d2)) := by
    rw [mul_comm, hadd]
  refine ⟨_, Camera.scroll_callback_bound Real.rpow b gl_canvas (d1 + d2) c g hg hpose hS _ rfl,
    ?_, ?_⟩
  · rw [Camera.scroll_callback_twice Real.rpow b gl_canvas d1 d2 c g hg hpose hS (hne d1) _ rfl,
      hadd, add_assoc]
  · rw [Camera.scroll_callback_twice Real.rpow b gl_canvas d2 d1 c g hg hpose hS (hne d2) _ rfl,
      hadd', add_assoc, add_comm d2 d1]

/-- C10 on an 800 by 600 camera: base 11/10, pointer at pixel (600, 150), deltas
1 and 2. -/
theorem scroll_callback_composes_witness :
    (0 : ℝ) < 11 / 10 ∧
    (window_resized 800 600 (attached ℝ)).game_object = some (GameObject.mk 1) ∧
    (GameObject.mk 1 : GameObject ℝ).pose = (window_resized 800 600 (attached ℝ)).scale_ *
      mat4.translation ![-(window_resized 800 600 (attached ℝ)).camera_pos_x_,
        -(window_resized 800 600 (attached ℝ)).camera_pos_y_, 0, 1] ∧
    Matrix.det (window_resized 800 600 (attached ℝ)).scale_ ≠ 0 ∧
    ∃ s, scroll_callback Real.rpow (11 / 10) (GLCanvas.mk 600 150 800 600) (1 + 2)
        (window_resized 800 600 (attached ℝ)) = .ok s ∧
      (scroll_callback Real.rpow (11 / 10) (GLCanvas.mk 600 150 800 600) 1
        (window_resized 800 600 (attached ℝ))).bind
        (scroll_callback Real.rpow (11 / 10) (GLCanvas.mk 600 150 800 600) 2) = .ok s ∧
      (scroll_callback Real.rpow (11 / 10) (GLCanvas.mk 600 150 800 600) 2
        (window_resized 800 600 (attached ℝ))).bind
        (scroll_callback Real.rpow (11 / 10) (GLCanvas.mk 600 150 800 600) 1) = .ok s := by
  have hpose : (GameObject.mk 1 : GameObject ℝ).pose =
      (window_resized 800 600 (attached ℝ)).scale_ *
      mat4.translation ![-(window_resized 800 600 (attached ℝ)).camera_pos_x_,
        -(window_resized 800 600 (attached ℝ)).camera_pos_y_, 0, 1] := by
    simp [window_resized, attached, mat4.translation_zero]
  have hS : Matrix.det (window_resized 800 600 (attached ℝ)).scale_ ≠ 0 := by
    simp [window_resized, attached]
  exact ⟨by norm_num, rfl, hpose, hS,
    scroll_callback_composes (11 / 10) (by norm_num) (GLCanvas.mk 600 150 800 600) 1 2
      (window_resized 800 600 (attached ℝ)) (GameObject.mk 1) rfl hpose hS⟩

/-- C11: `recenter_camera` resets and is idempotent.  With the canvas size and
the content dimensions held fixed, for every starting state: every state
`recenter_camera` returns has pan offset (0, 0), a second `recenter_camera`
on it returns that very state (same `zoom_power_`, `scale_`, pan offset and
pushed pose), and the outcome is the same whatever `zoom_power_`, `scale_` and
pan offset the camera had before.  For a base above one, a bound game object
and positive sizes the call does return. -/
theorem recenter_camera_idempotent (b : ℝ) (stage : Stage ℝ) (c : Camera ℝ) :
    (∀ fuel s, recenter_camera Real.rpow b stage fuel c = .ok s →
      s.camera_pos_x_ = 0 ∧ s.camera_pos_y_ = 0 ∧
      recenter_camera Real.rpow b stage fuel s = .ok s ∧
      ∀ fuel2 s2, recenter_camera Real.rpow b stage fuel2 s = .ok s2 → s2 = s) ∧
    (∀ fuel (z x y : ℝ) (sc : mat4 ℝ),
      recenter_camera Real.rpow b stage fuel
          { c with zoom_power_ := z, scale_ := sc, camera_pos_x_ := x, camera_pos_y_ := y } =
        recenter_camera Real.rpow b stage fuel c) ∧
    (1 < b → (∃ g, c.game_object = some g) → 0 < (buf_dim stage).x →
      0 < c.canvas_width_ → 0 < c.canvas_height_ →
      ∃ n, ∀ fuel, n < fuel → ∃ s, recenter_camera Real.rpow b stage fuel c = .ok s) := by
  refine ⟨?_, ?_, ?_⟩
  · intro fuel s h
    have hfix := Camera.recenter_camera_fixed Real.rpow b stage fuel c s h
    obtain ⟨p, g, -, -, hs⟩ := Camera.recenter_camera_frame Real.rpow b stage fuel c s h
    refine ⟨by rw [hs], by rw [hs], hfix, ?_⟩
    intro fuel2 s2 h2
    have h1 := Camera.recenter_camera_mono Real.rpow b stage fuel s s hfix fuel2
    have h3 := Camera.recenter_camera_mono Real.rpow b stage fuel2 s s2 h2 fuel
    rw [Nat.add_comm, h1] at h3
    exact (Except.ok.inj h3).symm
  · intro fuel z x y sc
    exact Camera.recenter_camera_forgets Real.rpow b stage fuel c z x y sc
  · rintro hb ⟨g, hg⟩ hx hW hH
    obtain ⟨p, hrun, -, -, -⟩ := Camera.set_initial_zoom_spec b hb
      { c with camera_pos_x_ := 0, camera_pos_y_ := 0 } g hg stage hx
      (Int.cast_pos.mpr hW) (Int.cast_pos.mpr hH)
    refine ⟨p.natAbs, fun fuel hfuel => ?_⟩
    simp only [recenter_camera, hrun fuel hfuel]
    exact ⟨_, rfl⟩

/-- C11 on an 800 by 600 canvas showing a 400 by 300 buffer, base 11/10:
`recenter_camera` returns for every fuel above a bound. -/
theorem recenter_camera_idempotent_witness :
    (1 : ℝ) < 11 / 10 ∧
    (∃ g, (window_resized 800 600 (attached ℝ)).game_object = some g) ∧
    0 < (buf_dim (Stage.mk (1 : mat4 ℝ) 400 300)).x ∧
    0 < (window_resized 800 600 (attached ℝ)).canvas_width_ ∧
    0 < (window_resized 800 600 (attached ℝ)).canvas_height_ ∧
    ∃ n, ∀ fuel, n < fuel → ∃ s, recenter_camera Real.rpow (11 / 10) (Stage.mk 1 400 300) fuel
      (window_resized 800 600 (attached ℝ)) = .ok s :=
  ⟨by norm_num, ⟨_, rfl⟩, by simp [Camera.buf_dim_identity, vec4.x], by simp [window_resized],
    by simp [window_resized],
    (recenter_camera_idempotent (11 / 10) (Stage.mk 1 400 300)
      (window_resized 800 600 (attached ℝ))).2.2 (by norm_num) ⟨_, rfl⟩
      (by simp [Camera.buf_dim_identity, vec4.x]) (by simp [window_resized])
      (by simp [window_resized])⟩

/-- C12: `window_resized w h` stores the size and sets the orthographic
projection with exact halves.  For all integers `w, h > 0`: afterwards
`canvas_width_ = w`, `canvas_height_ = h`, the projection is
`ortho(w/2, h/2, -1, 1)` with the halves taken in the field (not by integer
division), its inverse sends NDC `(x, y)` to world `(x * w/2, y * h/2)`, so
`(0, 0)` to `(0, 0)` and `(±1, ±1)` to `(±w/2, ±h/2)`; `zoom_power_`, `scale_`,
the pan offset and the game object with its pose are unchanged. -/
theorem window_resized_projection {K : Type} [LinearOrderedField K] (w h : ℤ)
    (hw : 0 < w) (hh : 0 < h) (c : Camera K) :
    (window_resized w h c).canvas_width_ = w ∧
    (window_resized w h c).canvas_height_ = h ∧
    (window_resized w h c).projection =
      mat4.set_ortho_projection ((w : K) / 2) ((h : K) / 2) (-1) 1 ∧
    (∀ x y : K, Matrix.mulVec (mat4.inv (window_resized w h c).projection) ![x, y, 0, 1] =
      ![x * ((w : K) / 2), y * ((h : K) / 2), 0, 1]) ∧
    Matrix.mulVec (mat4.inv (window_resized w h c).projection) ![0, 0, 0, 1] = ![0, 0, 0, 1] ∧
    Matrix.mulVec (mat4.inv (window_resized w h c).projection) ![1, 1, 0, 1] =
      ![(w : K) / 2, (h : K) / 2, 0, 1] ∧
    Matrix.mulVec (mat4.inv (window_resized w h c).projection) ![-1, -1, 0, 1] =
      ![-((w : K) / 2), -((h : K) / 2), 0, 1] ∧
    Matrix.mulVec (mat4.inv (window_resized w h c).projection) ![1, -1, 0, 1] =
      ![(w : K) / 2, -((h : K) / 2), 0, 1] ∧
    Matrix.mulVec (mat4.inv (window_resized w h c).projection) ![-1, 1, 0, 1] =
      ![-((w : K) / 2), (h : K) / 2, 0, 1] ∧
    (window_resized w h c).zoom_power_ = c.zoom_power_ ∧
    (window_resized w h c).scale_ = c.scale_ ∧
    (window_resized w h c).camera_pos_x_ = c.camera_pos_x_ ∧
    (window_resized w h c).camera_pos_y_ = c.camera_pos_y_ ∧
    (window_resized w h c).game_object = c.game_object := by
  have hw' : ((w : K) / 2) ≠ 0 := by
    have : (0 : K) < (w : K) := Int.cast_pos.mpr hw
    positivity
  have hh' : ((h : K) / 2) ≠ 0 := by
    have : (0 : K) < (h : K) := Int.cast_pos.mpr hh
    positivity
  have hmap : ∀ x y : K,
      Matrix.mulVec (mat4.inv (window_resized w h c).projection) ![x, y, 0, 1] =
        ![x * ((w : K) / 2), y * ((h : K) / 2), 0, 1] := by
    intro x y
    have hproj : (window_resized w h c).projection =
        mat4.set_ortho_projection ((w : K) / 2) ((h : K) / 2) (-1) 1 := rfl
    rw [hproj, mat4.inv_set_ortho_projection _ _ hw' hh' two_ne_zero]
    ext i
    fin_cases i <;>
      simp [Matrix.mulVec, Matrix.dotProduct, Fin.sum_univ_four, Matrix.vecHead,
        Matrix.vecTail, mul_comm]
  refine ⟨rfl, rfl, rfl, hmap, ?_, ?_, ?_, ?_, ?_, rfl, rfl, rfl, rfl, rfl⟩
  · rw [hmap]; simp
  · rw [hmap]; simp
  · rw [hmap]; simp
  · rw [hmap]; simp
  · rw [hmap]; simp

/-- C12 on an odd size: resizing to 5 by 3 sends NDC `(1, 1)` to `(5/2, 3/2)`. -/
theorem window_resized_projection_witness :
    (0 : ℤ) < 5 ∧ (0 : ℤ) < 3 ∧
    (window_resized 5 3 (attached ℝ)).canvas_width_ = 5 ∧
    (window_resized 5 3 (attached ℝ)).canvas_height_ = 3 ∧
    Matrix.mulVec (mat4.inv (window_resized 5 3 (attached ℝ)).projection) ![1, 1, 0, 1] =
      ![((5 : ℤ) : ℝ) / 2, ((3 : ℤ) : ℝ) / 2, 0, 1] :=
  ⟨by decide, by decide,
    (window_resized_projection 5 3 (by decide) (by decide) (attached ℝ)).1,
    (window_resized_projection 5 3 (by decide) (by decide) (attached ℝ)).2.1,
    (window_resized_projection 5 3 (by decide) (by decide) (attached ℝ)).2.2.2.2.2.1⟩

/-- C13: `scale_` is always invertible.  For a base above one, in every state
reached from a returning `set_initial_zoom` by a finite sequence of
`scroll_callback` (real deltas, any pointer), `mouse_drag_event`,
`window_resized` and `recenter_camera` (and `update`, `post_buffer_update`),
`scale_` has a non-zero determinant, and so has
`scale_ * translation(-camera_pos_x_, -camera_pos_y_, 0)`. -/
theorem scale_invertible (b : ℝ) (hb : 1 < b) (stage : Stage ℝ) (fuel : ℕ)
    (c s0 s : Camera ℝ) (events : List (CameraEvent ℝ))
    (hinit : set_initial_zoom Real.rpow b stage fuel c = .ok s0)
    (hrun : CameraEvent.run Real.rpow b events s0 = .ok s) :
    Matrix.det s.scale_ ≠ 0 ∧
    Matrix.det (s.scale_ * mat4.translation ![-s.camera_pos_x_, -s.camera_pos_y_, 0, 1]) ≠ 0 := by
  have hb0 : 0 < b := lt_trans one_pos hb
  have hpos : ∀ x : ℝ, Real.rpow b x ≠ 0 := fun x => (Real.rpow_pos_of_pos hb0 x).ne'
  have hdet : Matrix.det s.scale_ ≠ 0 := by
    refine CameraEvent.run_scale_invariant Real.rpow b (fun _ sc => Matrix.det sc ≠ 0) ?_ ?_
      stage fuel c s0 hinit events s hrun
    · intro p
      rw [mat4.det_scale]
      have hp : b ^ p ≠ 0 := (Real.rpow_pos_of_pos hb0 p).ne'
      simp [vec4.x, vec4.y, vec4.z, hp]
    · intro z d sc m hsc
      have := mat4.det_pivot_ne_zero sc m (Real.rpow b (-d)) hsc (hpos _)
      simpa only [Matrix.mul_assoc] using this
  refine ⟨hdet, ?_⟩
  rw [Matrix.det_mul, mat4.det_translation, mul_one]
  exact hdet

/-- C13 on the worked run: after a fit, a drag by (3, 4), a scroll by -1 at pixel
(300, 75) and a resize, `scale_` and the pose matrix have non-zero determinant. -/
theorem scale_invertible_witness :
    (1 : ℝ) < 11 / 10 ∧
    set_initial_zoom Real.rpow (11 / 10) (Stage.mk 1 400 300) 1
        (window_resized 400 300 (attached ℝ)) =
      .ok { zoom_power_ := 0
            camera_pos_x_ := 0
            camera_pos_y_ := 0
            canvas_width_ := 400
            canvas_height_ := 300
            scale_ := 1
            projection := mat4.set_ortho_projection 200 150 (-1) 1
            game_object := some (GameObject.mk 1) } ∧
    CameraEvent.run Real.rpow (11 / 10)
        [.mouse_drag_event 3 4, .scroll_callback (GLCanvas.mk 300 75 400 300) (-1),
          .window_resized 640 480, .update, .post_buffer_update]
        { zoom_power_ := 0
          camera_pos_x_ := 0
          camera_pos_y_ := 0
          canvas_width_ := 400
          canvas_height_ := 300
          scale_ := 1
          projection := mat4.set_ortho_projection 200 150 (-1) 1
          game_object := some (GameObject.mk 1) } =
      .ok { zoom_power_ := -1
            camera_pos_x_ := 3
            camera_pos_y_ := 4
            canvas_width_ := 640
            canvas_height_ := 480
            scale_ := !![11 / 10, 0, 0, -(97 / 10); 0, 11 / 10, 0, -(71 / 10);
                         0, 0, 1, 0; 0, 0, 0, 1]
            projection := mat4.set_ortho_projection 320 240 (-1) 1
            game_object := some (GameObject.mk
              !![11 / 10, 0, 0, -13; 0, 11 / 10, 0, -(23 / 2); 0, 0, 1, 0; 0, 0, 0, 1]) } ∧
    Matrix.det (!![11 / 10, 0, 0, -(97 / 10); 0, 11 / 10, 0, -(71 / 10);
                   0, 0, 1, 0; 0, 0, 0, 1] : mat4 ℝ) ≠ 0 ∧
    Matrix.det ((!![11 / 10, 0, 0, -(97 / 10); 0, 11 / 10, 0, -(71 / 10);
                    0, 0, 1, 0; 0, 0, 0, 1] : mat4 ℝ) *
      mat4.translation ![-3, -4, 0, 1]) ≠ 0 := by
  have h := scale_invertible (11 / 10) (by norm_num) (Stage.mk 1 400 300) 1
    (window_resized 400 300 (attached ℝ)) _ _ _ Camera.example_fit Camera.example_run
  exact ⟨by norm_num, Camera.example_fit, Camera.example_run, h⟩

/-- C15 as stated fails: `set_initial_zoom` itself does not push the pose.  On
the attached camera resized to 3 by 3 (pose `1`, no pan), base 2 and 1 by 1
content, it returns `scale_ = scale(1/2, 1/2, 1)` with the game object still
holding the pose `1`, which is not `scale_ * translation(0, 0, 0)`. -/
theorem set_initial_zoom_leaves_pose :
    (window_resized 3 3 (attached ℝ)).game_object = some (GameObject.mk 1) ∧
    set_initial_zoom Real.rpow 2 (Stage.mk 1 1 1) 2 (window_resized 3 3 (attached ℝ)) =
      .ok { window_resized 3 3 (attached ℝ) with
        zoom_power_ := 1
        scale_ := mat4.scale ![1 / 2, 1 / 2, 1, 1] } ∧
    ({ window_resized 3 3 (attached ℝ) with
        zoom_power_ := 1
        scale_ := mat4.scale ![1 / 2, 1 / 2, 1, 1] } : Camera ℝ).game_object =
      some (GameObject.mk 1) ∧
    (GameObject.mk 1 : GameObject ℝ).pose ≠
      mat4.scale ![1 / 2, 1 / 2, 1, 1] * mat4.translation ![-0, -0, 0, 1] := by
  refine ⟨rfl, Camera.example_fit_grow, rfl, ?_⟩
  intro h
  have h00 := congrFun (congrFun h 0) 0
  simp [mat4.scale, mat4.translation_zero, vec4.x] at h00

/-- C15 (amended): the pose is pushed by the callers of `set_initial_zoom`.  A
returning `set_initial_zoom` sets `scale_ = scale(1/zoom, 1/zoom, 1)` with
`zoom = compute_zoom` at the new `zoom_power_` and leaves the game object, hence
the stored pose, as it was; after a returning `post_initialize` or
`recenter_camera`, which call `update_object_pose` right after it, the game
object is bound and its pose equals the new
`scale_ * translation(-camera_pos_x_, -camera_pos_y_, 0)`. -/
theorem set_initial_zoom_callers_push_pose {K : Type} [LinearOrderedField K]
    (pow : K → K → K) (zoom_factor : K) (gl_canvas : GLCanvas K) (stage : Stage K)
    (fuel : ℕ) (c s : Camera K) :
    (set_initial_zoom pow zoom_factor stage fuel c = .ok s →
      s.game_object = c.game_object ∧
      s.scale_ = mat4.scale ![1 / compute_zoom pow zoom_factor s,
        1 / compute_zoom pow zoom_factor s, 1, 1]) ∧
    ( post_initialize pow zoom_factor gl_canvas stage fuel c = .ok s →
      ∃ g, s.game_object = some g ∧
        g.pose = s.scale_ * mat4.translation ![-s.camera_pos_x_, -s.camera_pos_y_, 0, 1] ∧
        s.scale_ = mat4.scale ![1 / compute_zoom pow zoom_factor s,
          1 / compute_zoom pow zoom_factor s, 1, 1]) ∧
    (recenter_camera pow zoom_factor stage fuel c = .ok s →
      ∃ g, s.game_object = some g ∧
        g.pose = s.scale_ * mat4.translation ![-s.camera_pos_x_, -s.camera_pos_y_, 0, 1] ∧
        s.scale_ = mat4.scale ![1 / compute_zoom pow zoom_factor s,
          1 / compute_zoom pow zoom_factor s, 1, 1]) := by
  refine ⟨?_, ?_, ?_⟩
  · intro h
    obtain ⟨-, p, rfl⟩ := Camera.set_initial_zoom_frame pow zoom_factor stage fuel c s h
    exact ⟨rfl, rfl⟩
  · intro h
    simp only [ post_initialize] at h
    cases hs : set_initial_zoom pow zoom_factor stage fuel
        (window_resized gl_canvas.width gl_canvas.height c) with
    | error f => rw [hs] at h; cases h
    | ok c2 =>
      rw [hs] at h
      cases h
      obtain ⟨⟨g, hg⟩, p, hc2⟩ := Camera.set_initial_zoom_frame pow zoom_factor stage fuel _ c2 hs
      have hg2 : c2.game_object = some g := by rw [hc2]; exact hg
      obtain ⟨g1, hg1, hp1⟩ := Camera.update_object_pose_invariant c2 g hg2
      refine ⟨g1, hg1, hp1, ?_⟩
      simp only [compute_zoom, (Camera.update_object_pose_fields c2).1,
        (Camera.update_object_pose_fields c2).2.1]
      rw [hc2]
  · intro h
    simp only [recenter_camera] at h
    cases hs : set_initial_zoom pow zoom_factor stage fuel
        { c with camera_pos_x_ := 0, camera_pos_y_ := 0 } with
    | error f => rw [hs] at h; cases h
    | ok c2 =>
      rw [hs] at h
      cases h
      obtain ⟨⟨g, hg⟩, p, hc2⟩ := Camera.set_initial_zoom_frame pow zoom_factor stage fuel _ c2 hs
      have hg2 : c2.game_object = some g := by rw [hc2]; exact hg
      obtain ⟨g1, hg1, hp1⟩ := Camera.update_object_pose_invariant c2 g hg2
      refine ⟨g1, hg1, hp1, ?_⟩
      simp only [compute_zoom, (Camera.update_object_pose_fields c2).1,
        (Camera.update_object_pose_fields c2).2.1]
      rw [hc2]

/-- C15 (amended) on the worked run's start: after `post_initialize` on a 400 by
300 canvas showing a 400 by 300 buffer, the game object holds
`scale_ * translation(0, 0, 0)`. -/
theorem set_initial_zoom_callers_push_pose_witness :
    post_initialize Real.rpow (11 / 10) (GLCanvas.mk 0 0 400 300) (Stage.mk 1 400 300) 1
        (attached ℝ) =
      .ok { zoom_power_ := 0
            camera_pos_x_ := 0
            camera_pos_y_ := 0
            canvas_width_ := 400
            canvas_height_ := 300
            scale_ := 1
            projection := mat4.set_ortho_projection 200 150 (-1) 1
            game_object := some (GameObject.mk 1) } ∧
    ∃ g, (some (GameObject.mk 1) : Option (GameObject ℝ)) = some g ∧
      g.pose = (1 : mat4 ℝ) * mat4.translation ![-0, -0, 0, 1] := by
  obtain ⟨g, h1, h2, -⟩ :=
    (set_initial_zoom_callers_push_pose Real.rpow (11 / 10) (GLCanvas.mk 0 0 400 300)
      (Stage.mk 1 400 300) 1 (attached ℝ) _).2.1 Camera.example_start
  exact ⟨Camera.example_start, g, h1, h2⟩

/-- C16: `zoom_power_` stays on par with the accumulated matrix scale.  For a
base above one, in every state reached from a returning `set_initial_zoom` by a
finite sequence of `scroll_callback` (any deltas, any pointer positions),
`mouse_drag_event` and `recenter_camera` (and `window_resized`, `update`,
`post_buffer_update`), the upper-left 3x3 block of `scale_` is the uniform scale
`1 / compute_zoom`: its entries (0,0) and (1,1) are
`1 / compute_zoom = base^(-zoom_power_)`, entry (2,2) is 1 and the six
off-diagonal entries are 0. -/
theorem scale_linear_part (b : ℝ) (hb : 1 < b) (stage : Stage ℝ) (fuel : ℕ)
    (c s0 s : Camera ℝ) (events : List (CameraEvent ℝ))
    (hinit : set_initial_zoom Real.rpow b stage fuel c = .ok s0)
    (hrun : CameraEvent.run Real.rpow b events s0 = .ok s) :
    s.scale_ 0 0 = 1 / compute_zoom Real.rpow b s ∧
    s.scale_ 1 1 = 1 / compute_zoom Real.rpow b s ∧
    1 / compute_zoom Real.rpow b s = b ^ (-s.zoom_power_) ∧
    s.scale_ 2 2 = 1 ∧
    s.scale_ 0 1 = 0 ∧ s.scale_ 0 2 = 0 ∧ s.scale_ 1 0 = 0 ∧
    s.scale_ 1 2 = 0 ∧ s.scale_ 2 0 = 0 ∧ s.scale_ 2 1 = 0 := by
  have hb0 : 0 < b := lt_trans one_pos hb
  have hinv : ∀ x : ℝ, 1 / Real.rpow b x = Real.rpow b (-x) := by
    intro x
    simp only [Real.rpow_eq_pow]
    rw [Real.rpow_neg hb0.le, one_div]
  have key := CameraEvent.run_scale_invariant Real.rpow b
    (fun z sc => sc 0 0 = Real.rpow b (-z) ∧ sc 1 1 = Real.rpow b (-z) ∧ sc 2 2 = 1 ∧
      sc 0 1 = 0 ∧ sc 0 2 = 0 ∧ sc 1 0 = 0 ∧ sc 1 2 = 0 ∧ sc 2 0 = 0 ∧ sc 2 1 = 0) ?_ ?_
    stage fuel c s0 hinit events s hrun
  · obtain ⟨h00, h11, h22, h01, h02, h10, h12, h20, h21⟩ := key
    simp only [compute_zoom, hinv]
    exact ⟨h00, h11, rfl, h22, h01, h02, h10, h12, h20, h21⟩
  · intro p
    simp [mat4.scale, vec4.x, vec4.y, vec4.z, Matrix.vecHead, Matrix.vecTail,
      Real.rpow_neg hb0.le]
  · rintro z d sc m ⟨h00, h11, h22, h01, h02, h10, h12, h20, h21⟩
    rw [Matrix.mul_assoc, Matrix.mul_assoc, ← Matrix.mul_assoc (mat4.translation m),
      mat4.pivot_eq]
    simp only [Real.rpow_eq_pow] at h00 h11 ⊢
    simp [Matrix.mul_apply, Fin.sum_univ_four, Matrix.vecHead, Matrix.vecTail, h00, h11, h22,
      h01, h02, h10, h12, h20, h21]
    rw [← Real.rpow_add hb0, add_comm]

/-- C16 on the worked run: with `zoom_power_ = -1` the entry (0,0) of `scale_`,
11/10, is `1 / compute_zoom = (11/10)^(-(-1))`. -/
theorem scale_linear_part_witness :
    (1 : ℝ) < 11 / 10 ∧
    set_initial_zoom Real.rpow (11 / 10) (Stage.mk 1 400 300) 1
        (window_resized 400 300 (attached ℝ)) =
      .ok { zoom_power_ := 0
            camera_pos_x_ := 0
            camera_pos_y_ := 0
            canvas_width_ := 400
            canvas_height_ := 300
            scale_ := 1
            projection := mat4.set_ortho_projection 200 150 (-1) 1
            game_object := some (GameObject.mk 1) } ∧
    CameraEvent.run Real.rpow (11 / 10)
        [.mouse_drag_event 3 4, .scroll_callback (GLCanvas.mk 300 75 400 300) (-1),
          .window_resized 640 480, .update, .post_buffer_update]
        { zoom_power_ := 0
          camera_pos_x_ := 0
          camera_pos_y_ := 0
          canvas_width_ := 400
          canvas_height_ := 300
          scale_ := 1
          projection := mat4.set_ortho_projection 200 150 (-1) 1
          game_object := some (GameObject.mk 1) } =
      .ok { zoom_power_ := -1
            camera_pos_x_ := 3
            camera_pos_y_ := 4
            canvas_width_ := 640
            canvas_height_ := 480
            scale_ := !![11 / 10, 0, 0, -(97 / 10); 0, 11 / 10, 0, -(71 / 10);
                         0, 0, 1, 0; 0, 0, 0, 1]
            projection := mat4.set_ortho_projection 320 240 (-1) 1
            game_object := some (GameObject.mk
              !![11 / 10, 0, 0, -13; 0, 11 / 10, 0, -(23 / 2); 0, 0, 1, 0; 0, 0, 0, 1]) } ∧
    (11 / 10 : ℝ) = 1 / Real.rpow (11 / 10) (-1) ∧
    (1 : ℝ) / Real.rpow (11 / 10) (-1) = (11 / 10 : ℝ) ^ (-(-1 : ℝ)) := by
  have h := scale_linear_part (11 / 10) (by norm_num) (Stage.mk 1 400 300) 1
    (window_resized 400 300 (attached ℝ)) _ _ _ Camera.example_fit Camera.example_run
  exact ⟨by norm_num, Camera.example_fit, Camera.example_run, h.1, h.2.2.1⟩

/-- C17 (the code breaks it): `operator=` copies `canvas_width_` and
`canvas_height_` but not `projection`.  Assigning a camera resized to 400 by 300
to a camera resized to 800 by 600 leaves the latter with canvas size 400 by 300
and its old projection `ortho(400, 300, -1, 1)`, which is not
`ortho(400/2, 300/2, -1, 1)`; so `operator=` changes the canvas size and does
not keep the projection a function of it.  The rest of the claim holds:
`window_resized` establishes the predicate, and `scroll_callback`,
`mouse_drag_event`, `recenter_camera`, `update`, `post_buffer_update` and
`set_initial_zoom` change neither the projection nor the canvas size. -/
theorem assign_breaks_projection :
    (window_resized 800 600 (attached ℝ)).projection =
      mat4.set_ortho_projection
        (((window_resized 800 600 (attached ℝ)).canvas_width_ : ℝ) / 2)
        (((window_resized 800 600 (attached ℝ)).canvas_height_ : ℝ) / 2) (-1) 1 ∧
    (window_resized 400 300 (attached ℝ)).projection =
      mat4.set_ortho_projection
        (((window_resized 400 300 (attached ℝ)).canvas_width_ : ℝ) / 2)
        (((window_resized 400 300 (attached ℝ)).canvas_height_ : ℝ) / 2) (-1) 1 ∧
    (assign (window_resized 800 600 (attached ℝ))
      (window_resized 400 300 (attached ℝ))).canvas_width_ = 400 ∧
    (assign (window_resized 800 600 (attached ℝ))
      (window_resized 400 300 (attached ℝ))).canvas_height_ = 300 ∧
    (assign (window_resized 800 600 (attached ℝ))
      (window_resized 400 300 (attached ℝ))).projection =
        mat4.set_ortho_projection 400 300 (-1) 1 ∧
    (assign (window_resized 800 600 (attached ℝ))
      (window_resized 400 300 (attached ℝ))).projection ≠
        mat4.set_ortho_projection
          (((assign (window_resized 800 600 (attached ℝ))
            (window_resized 400 300 (attached ℝ))).canvas_width_ : ℝ) / 2)
          (((assign (window_resized 800 600 (attached ℝ))
            (window_resized 400 300 (attached ℝ))).canvas_height_ : ℝ) / 2) (-1) 1 ∧
    (∀ (w h : ℤ) (c : Camera ℝ),
      (window_resized w h c).projection =
        mat4.set_ortho_projection (((window_resized w h c).canvas_width_ : ℝ) / 2)
          (((window_resized w h c).canvas_height_ : ℝ) / 2) (-1) 1) ∧
    (∀ (b : ℝ) (e : CameraEvent ℝ) (c s : Camera ℝ),
      CameraEvent.apply Real.rpow b e c = .ok s → (∀ w h, e ≠ .window_resized w h) →
      s.projection = c.projection ∧ s.canvas_width_ = c.canvas_width_ ∧
        s.canvas_height_ = c.canvas_height_) ∧
    (∀ (b : ℝ) (stage : Stage ℝ) (fuel : ℕ) (c s : Camera ℝ),
      set_initial_zoom Real.rpow b stage fuel c = .ok s →
      s.projection = c.projection ∧ s.canvas_width_ = c.canvas_width_ ∧
        s.canvas_height_ = c.canvas_height_) := by
  have hfields := Camera.update_object_pose_fields
    ({ window_resized 800 600 (attached ℝ) with
      zoom_power_ := (window_resized 400 300 (attached ℝ)).zoom_power_
      camera_pos_x_ := (window_resized 400 300 (attached ℝ)).camera_pos_x_
      camera_pos_y_ := (window_resized 400 300 (attached ℝ)).camera_pos_y_
      canvas_width_ := (window_resized 400 300 (attached ℝ)).canvas_width_
      canvas_height_ := (window_resized 400 300 (attached ℝ)).canvas_height_
      scale_ := (window_resized 400 300 (attached ℝ)).scale_ } : Camera ℝ)
  obtain ⟨-, -, -, -, h5, h6, h7⟩ := hfields
  have hw : (assign (window_resized 800 600 (attached ℝ))
      (window_resized 400 300 (attached ℝ))).canvas_width_ = 400 := h5
  have hh : (assign (window_resized 800 600 (attached ℝ))
      (window_resized 400 300 (attached ℝ))).canvas_height_ = 300 := h6
  have hp : (assign (window_resized 800 600 (attached ℝ))
      (window_resized 400 300 (attached ℝ))).projection =
        mat4.set_ortho_projection 400 300 (-1) 1 := by
    refine h7.trans ?_
    simp [window_resized]
    norm_num
  refine ⟨rfl, rfl, hw, hh, hp, ?_, fun _ _ _ => rfl, ?_, ?_⟩
  · rw [hp, hw, hh]
    intro h
    have h00 := congrFun (congrFun h 0) 0
    simp [mat4.set_ortho_projection] at h00
    norm_num at h00
  · intro b e c s h he
    exact CameraEvent.apply_projection Real.rpow b e c s h he
  · intro b stage fuel c s h
    exact Camera.set_initial_zoom_projection Real.rpow b stage fuel c s h

/-- C18 (amended): the iterative fit search against the closed form.  For a base
above one, a positive canvas size and a positive effective content size, with
`r = min (W / cw) (H / ch)`: `set_initial_zoom` returns an integer power `p`
with `p = floor(log_base r)` whenever `r` is not an integer power `base^k` with
`k ≥ 1`, and `p = k - 1` when it is; in one formula, `p = ceil(log_base r) - 1`
for `r > 1` (grow branch, strict comparison then step back) and
`p = floor(log_base r)` for `r ≤ 1`. -/
theorem set_initial_zoom_closed_form (b : ℝ) (hb : 1 < b) (c : Camera ℝ) (g : GameObject ℝ)
    (hg : c.game_object = some g) (stage : Stage ℝ)
    (hx : 0 < (buf_dim stage).x) (hy : 0 < (buf_dim stage).y)
    (hW : 0 < c.canvas_width_) (hH : 0 < c.canvas_height_) :
    ∃ p : ℤ,
      (∀ fuel, p.natAbs < fuel →
        set_initial_zoom Real.rpow b stage fuel c =
          .ok { c with
            zoom_power_ := (p : ℝ)
            scale_ := mat4.scale ![1 / b ^ p, 1 / b ^ p, 1, 1] }) ∧
      (∀ fuel s, set_initial_zoom Real.rpow b stage fuel c = .ok s → s.zoom_power_ = (p : ℝ)) ∧
      ((∀ k : ℤ, 1 ≤ k →
          min ((c.canvas_width_ : ℝ) / (buf_dim stage).x)
            ((c.canvas_height_ : ℝ) / (buf_dim stage).y) ≠ b ^ k) →
        p = ⌊Real.logb b (min ((c.canvas_width_ : ℝ) / (buf_dim stage).x)
          ((c.canvas_height_ : ℝ) / (buf_dim stage).y))⌋) ∧
      (∀ k : ℤ, 1 ≤ k →
        min ((c.canvas_width_ : ℝ) / (buf_dim stage).x)
          ((c.canvas_height_ : ℝ) / (buf_dim stage).y) = b ^ k → p = k - 1) ∧
      (1 < min ((c.canvas_width_ : ℝ) / (buf_dim stage).x)
          ((c.canvas_height_ : ℝ) / (buf_dim stage).y) →
        p = ⌈Real.logb b (min ((c.canvas_width_ : ℝ) / (buf_dim stage).x)
          ((c.canvas_height_ : ℝ) / (buf_dim stage).y))⌉ - 1) ∧
      (min ((c.canvas_width_ : ℝ) / (buf_dim stage).x)
          ((c.canvas_height_ : ℝ) / (buf_dim stage).y) ≤ 1 →
        p = ⌊Real.logb b (min ((c.canvas_width_ : ℝ) / (buf_dim stage).x)
          ((c.canvas_height_ : ℝ) / (buf_dim stage).y))⌋) := by
  have hWr : (0 : ℝ) < c.canvas_width_ := Int.cast_pos.mpr hW
  have hHr : (0 : ℝ) < c.canvas_height_ := Int.cast_pos.mpr hH
  obtain ⟨p, hrun, hgrow, hshrink, hstay⟩ :=
    Camera.set_initial_zoom_spec b hb c g hg stage hx hWr hHr
  set r := min ((c.canvas_width_ : ℝ) / (buf_dim stage).x)
    ((c.canvas_height_ : ℝ) / (buf_dim stage).y) with hrdef
  have hr : 0 < r := lt_min (div_pos hWr hx) (div_pos hHr hy)
  have hfit : ∀ t : ℝ, (t * (buf_dim stage).x ≤ (c.canvas_width_ : ℝ) ∧
      t * (buf_dim stage).y ≤ (c.canvas_height_ : ℝ)) ↔ t ≤ r :=
    fun t => Camera.fit_iff_le_min _ _ _ _ t hx hy
  have hsfit : ∀ t : ℝ, ((c.canvas_width_ : ℝ) > t * (buf_dim stage).x ∧
      (c.canvas_height_ : ℝ) > t * (buf_dim stage).y) ↔ t < r :=
    fun t => Camera.strict_fit_iff_lt_min _ _ _ _ t hx hy
  have hpow : ∀ k : ℤ, 1 ≤ k → 1 < b ^ k := by
    intro k hk
    have := zpow_lt_zpow_right₀ hb (show (0 : ℤ) < k by omega)
    simpa using this
  refine ⟨p, hrun, ?_, ?_⟩
  · intro fuel s hs
    rw [Camera.set_initial_zoom_unique Real.rpow b stage c _ s p.natAbs hrun fuel hs]
  by_cases h1 : (c.canvas_width_ : ℝ) > (buf_dim stage).x ∧
      (c.canvas_height_ : ℝ) > (buf_dim stage).y
  · -- grow branch: `b^p < r ≤ b^(p+1)`
    obtain ⟨hp0, hlo, hhi⟩ := hgrow h1
    rw [hsfit] at hlo hhi
    have hhi' : r ≤ b ^ (p + 1) := not_lt.mp hhi
    have hceil := Camera.ceil_logb_eq b hb r hr p hlo hhi'
    have hr1 : 1 < r := by
      have := (hsfit 1).mp (by simpa using h1)
      exact this
    refine ⟨?_, ?_, ?_, ?_⟩
    · intro hne
      have hlt : r < b ^ (p + 1) := lt_of_le_of_ne hhi' (hne (p + 1) (by omega))
      exact (Camera.floor_logb_eq b hb r hr p hlo.le hlt).symm
    · intro k hk hrk
      rw [hrk] at hlo hhi'
      have hk1 : p < k := (zpow_right_strictMono₀ hb).lt_iff_lt.mp hlo
      have hk2 : k ≤ p + 1 := (zpow_right_strictMono₀ hb).le_iff_le.mp hhi'
      omega
    · intro _
      rw [hceil]; ring
    · intro hle
      exact absurd hr1 (not_lt.mpr hle)
  · by_cases h2 : (c.canvas_width_ : ℝ) < (buf_dim stage).x ∨
        (c.canvas_height_ : ℝ) < (buf_dim stage).y
    · -- shrink branch: `b^p ≤ r < b^(p+1)` and `r < 1`
      obtain ⟨hp1, hlo, hfirst⟩ := hshrink h2
      rw [hfit] at hlo
      have hr1 : r < 1 := by
        rw [hrdef, min_lt_iff, div_lt_one hx, div_lt_one hy]
        exact h2
      have hhi : r < b ^ (p + 1) := by
        rcases lt_or_eq_of_le hp1 with hlt | heq
        · have := hfirst (p + 1) (by omega) (by omega)
          rw [hfit] at this
          exact not_le.mp this
        · rw [heq]; simpa using hr1
      have hfloor := Camera.floor_logb_eq b hb r hr p hlo hhi
      refine ⟨fun _ => hfloor.symm, ?_, ?_, fun _ => hfloor.symm⟩
      · intro k hk hrk
        have := hpow k hk
        rw [← hrk] at this
        exact absurd hr1 (not_lt.mpr this.le)
      · intro h
        exact absurd hr1 (not_lt.mpr h.le)
    · -- neither branch: `r = 1`, `p = 0`
      have hp := hstay h1 h2
      subst hp
      have hge : 1 ≤ r := by
        rw [hrdef, le_min_iff, one_le_div hx, one_le_div hy]
        exact ⟨not_lt.mp (fun h => h2 (Or.inl h)), not_lt.mp (fun h => h2 (Or.inr h))⟩
      have hle : r ≤ 1 := by
        by_contra hcon
        exact h1 (by simpa using (hsfit 1).mpr (not_le.mp hcon))
      have hr1 : r = 1 := le_antisymm hle hge
      have hfloor : ⌊Real.logb b r⌋ = 0 := by rw [hr1, Real.logb_one]; simp
      refine ⟨fun _ => hfloor.symm, ?_, ?_, fun _ => hfloor.symm⟩
      · intro k hk hrk
        have := hpow k hk
        rw [← hrk, hr1] at this
        exact absurd this (lt_irrefl 1)
      · intro h
        rw [hr1] at h
        exact absurd h (lt_irrefl 1)

/-- C18 (amended) on an 800 by 600 canvas showing a 400 by 300 buffer, base
11/10. -/
theorem set_initial_zoom_closed_form_witness :
    (1 : ℝ) < 11 / 10 ∧
    (window_resized 800 600 (attached ℝ)).game_object = some (GameObject.mk 1) ∧
    0 < (buf_dim (Stage.mk (1 : mat4 ℝ) 400 300)).x ∧
    0 < (buf_dim (Stage.mk (1 : mat4 ℝ) 400 300)).y ∧
    0 < (window_resized 800 600 (attached ℝ)).canvas_width_ ∧
    0 < (window_resized 800 600 (attached ℝ)).canvas_height_ ∧
    ∃ p : ℤ,
      (∀ fuel s, set_initial_zoom Real.rpow (11 / 10) (Stage.mk 1 400 300) fuel
        (window_resized 800 600 (attached ℝ)) = .ok s → s.zoom_power_ = (p : ℝ)) ∧
      (1 < min (((window_resized 800 600 (attached ℝ)).canvas_width_ : ℝ) /
            (buf_dim (Stage.mk (1 : mat4 ℝ) 400 300)).x)
          (((window_resized 800 600 (attached ℝ)).canvas_height_ : ℝ) /
            (buf_dim (Stage.mk (1 : mat4 ℝ) 400 300)).y) →
        p = ⌈Real.logb (11 / 10)
          (min (((window_resized 800 600 (attached ℝ)).canvas_width_ : ℝ) /
            (buf_dim (Stage.mk (1 : mat4 ℝ) 400 300)).x)
          (((window_resized 800 600 (attached ℝ)).canvas_height_ : ℝ) /
            (buf_dim (Stage.mk (1 : mat4 ℝ) 400 300)).y))⌉ - 1) := by
  obtain ⟨p, -, h2, -, -, h5, -⟩ :=
    set_initial_zoom_closed_form (11 / 10) (by norm_num) (window_resized 800 600 (attached ℝ))
      (GameObject.mk 1) rfl (Stage.mk 1 400 300) (by simp [Camera.buf_dim_identity, vec4.x])
      (by simp [Camera.buf_dim_identity, vec4.y]) (by simp [window_resized])
      (by simp [window_resized])
  exact ⟨by norm_num, rfl, by simp [Camera.buf_dim_identity, vec4.x],
    by simp [Camera.buf_dim_identity, vec4.y], by simp [window_resized],
    by simp [window_resized], p, h2, h5⟩

/-- C18 as stated fails at a boundary: base 2, a 2 by 2 canvas and 1 by 1
content give `zoom_power_ = 0`, but `floor(log_2 (min (2/1) (2/1))) = 1`. -/
theorem set_initial_zoom_boundary_below_closed_form :
    (1 : ℝ) < 2 ∧
    0 < (window_resized 2 2 (attached ℝ)).canvas_width_ ∧
    0 < (window_resized 2 2 (attached ℝ)).canvas_height_ ∧
    0 < (buf_dim (Stage.mk (1 : mat4 ℝ) 1 1)).x ∧
    0 < (buf_dim (Stage.mk (1 : mat4 ℝ) 1 1)).y ∧
    set_initial_zoom Real.rpow 2 (Stage.mk 1 1 1) 1 (window_resized 2 2 (attached ℝ)) =
      .ok { window_resized 2 2 (attached ℝ) with zoom_power_ := 0, scale_ := 1 } ∧
    ⌊Real.logb 2 (min
      (((window_resized 2 2 (attached ℝ)).canvas_width_ : ℝ) /
        (buf_dim (Stage.mk (1 : mat4 ℝ) 1 1)).x)
      (((window_resized 2 2 (attached ℝ)).canvas_height_ : ℝ) /
        (buf_dim (Stage.mk (1 : mat4 ℝ) 1 1)).y))⌋ = 1 := by
  refine ⟨by norm_num, by simp [window_resized], by simp [window_resized],
    by simp [Camera.buf_dim_identity, vec4.x], by simp [Camera.buf_dim_identity, vec4.y],
    Camera.example_boundary, ?_⟩
  have e : min
      (((window_resized 2 2 (attached ℝ)).canvas_width_ : ℝ) /
        (buf_dim (Stage.mk (1 : mat4 ℝ) 1 1)).x)
      (((window_resized 2 2 (attached ℝ)).canvas_height_ : ℝ) /
        (buf_dim (Stage.mk (1 : mat4 ℝ) 1 1)).y) = 2 := by
    simp [window_resized, Camera.buf_dim_identity, vec4.x, vec4.y]
  rw [e, Real.logb_self_eq_one (by norm_num)]
  simp

/-- C19: `scale_` is path-dependent while `zoom_power_` is not.  From the dragged
state of the worked run (400 by 300 canvas, pan (3, 4), identity `scale_`), the
one-call sequences `scroll_callback(-1)` with the pointer at pixel (300, 75) and
`scroll_callback(-1)` with the pointer at the centre (200, 150) end with the
same `zoom_power_ = -1` but with different `scale_` matrices and different
pushed poses; hence no function of `zoom_power_` gives `scale_`. -/
theorem scale_path_dependent :
    CameraEvent.run Real.rpow (11 / 10) [.scroll_callback (GLCanvas.mk 300 75 400 300) (-1)]
        { zoom_power_ := 0
          camera_pos_x_ := 3
          camera_pos_y_ := 4
          canvas_width_ := 400
          canvas_height_ := 300
          scale_ := 1
          projection := mat4.set_ortho_projection 200 150 (-1) 1
          game_object := some (GameObject.mk (mat4.translation ![-3, -4, 0, 1])) } =
      .ok { zoom_power_ := -1
            camera_pos_x_ := 3
            camera_pos_y_ := 4
            canvas_width_ := 400
            canvas_height_ := 300
            scale_ := !![11 / 10, 0, 0, -(97 / 10); 0, 11 / 10, 0, -(71 / 10);
                         0, 0, 1, 0; 0, 0, 0, 1]
            projection := mat4.set_ortho_projection 200 150 (-1) 1
            game_object := some (GameObject.mk
              !![11 / 10, 0, 0, -13; 0, 11 / 10, 0, -(23 / 2); 0, 0, 1, 0; 0, 0, 0, 1]) } ∧
    CameraEvent.run Real.rpow (11 / 10) [.scroll_callback (GLCanvas.mk 200 150 400 300) (-1)]
        { zoom_power_ := 0
          camera_pos_x_ := 3
          camera_pos_y_ := 4
          canvas_width_ := 400
          canvas_height_ := 300
          scale_ := 1
          projection := mat4.set_ortho_projection 200 150 (-1) 1
          game_object := some (GameObject.mk (mat4.translation ![-3, -4, 0, 1])) } =
      .ok { zoom_power_ := -1
            camera_pos_x_ := 3
            camera_pos_y_ := 4
            canvas_width_ := 400
            canvas_height_ := 300
            scale_ := !![11 / 10, 0, 0, 3 / 10; 0, 11 / 10, 0, 4 / 10;
                         0, 0, 1, 0; 0, 0, 0, 1]
            projection := mat4.set_ortho_projection 200 150 (-1) 1
            game_object := some (GameObject.mk
              !![11 / 10, 0, 0, -3; 0, 11 / 10, 0, -4; 0, 0, 1, 0; 0, 0, 0, 1]) } ∧
    (!![11 / 10, 0, 0, -(97 / 10); 0, 11 / 10, 0, -(71 / 10); 0, 0, 1, 0; 0, 0, 0, 1] :
      mat4 ℝ) ≠ !![11 / 10, 0, 0, 3 / 10; 0, 11 / 10, 0, 4 / 10; 0, 0, 1, 0; 0, 0, 0, 1] ∧
    (!![11 / 10, 0, 0, -13; 0, 11 / 10, 0, -(23 / 2); 0, 0, 1, 0; 0, 0, 0, 1] : mat4 ℝ) ≠
      !![11 / 10, 0, 0, -3; 0, 11 / 10, 0, -4; 0, 0, 1, 0; 0, 0, 0, 1] ∧
    ¬ ∃ f : ℝ → mat4 ℝ, ∀ (gl_canvas : GLCanvas ℝ) (delta : ℝ) (c s : Camera ℝ),
      scroll_callback Real.rpow (11 / 10) gl_canvas delta c = .ok s →
        s.scale_ = f s.zoom_power_ := by
  refine ⟨?_, ?_, Camera.example_scale_ne, Camera.example_pose_ne, ?_⟩
  · simp only [CameraEvent.run, CameraEvent.apply]
    rw [Camera.example_scroll_callback]
  · simp only [CameraEvent.run, CameraEvent.apply]
    rw [Camera.example_centre_scroll_callback]
  · rintro ⟨f, hf⟩
    have h1 := hf _ _ _ _ Camera.example_scroll_callback
    have h2 := hf _ _ _ _ Camera.example_centre_scroll_callback
    exact Camera.example_scale_ne (h1.trans h2.symm)
